import Mathlib

/-!
# thcrap: binary hacks, breakpoints, generic text and ANM patching

A shallow embedding of the parts of thcrap that the specification talks about.

* `src/thcrap/src/binhack.h`, `src/thcrap/src/breakpoint.h` only declare the
  binary hack and breakpoint engine.  Its bodies are modelled from the
  specification; every such definition says so in its doc comment.
* `src/thcrap/src/init.c`, `src/thcrap_tsa/src/gentext.c` and
  `src/thcrap_tsa/src/anm.c` are embedded from their C source.

Conventions: bytes are natural numbers below 256, `size_t` and `png_uint_32`
are natural numbers reduced modulo `2 ^ 32` where the C code can wrap, a
pointer into a buffer is the buffer together with an offset, and a `NULL`
pointer is `none`.
-/

namespace Thcrap

/-! ## Machine integers and little-endian fields -/

/-- Number of values of a 32-bit machine word (`size_t`, `png_uint_32`, `DWORD`). -/
def WORD : Nat := 2 ^ 32

/-- The `w` low bytes of `v`, least significant byte first. -/
def le_encode : Nat → Nat → List Nat
  | 0, _ => []
  | w + 1, v => (v % 256) :: le_encode w (v / 256)

/-- Unsigned reading of a little-endian byte string. -/
def le_decode : List Nat → Nat
  | [] => 0
  | b :: bs => b + 256 * le_decode bs

/-- Two's complement (signed) reading of a little-endian byte string. -/
def le_decode_signed (bs : List Nat) : Int :=
  if 2 * le_decode bs < 256 ^ bs.length then (le_decode bs : Int)
  else (le_decode bs : Int) - (256 : Int) ^ bs.length

/-! ## Binary hack renderer (`binhack.h`) -/

/-- Modelled from the spec: the token of a relative or absolute reference
(§4.1): a numeric literal or the symbolic name of a code cave.  The resolver
body is not part of the sources. -/
inductive RefToken where
  | literal (addr : Nat)
  | cave (name : String)
deriving Repr, DecidableEq

/-- Modelled from the spec: one element of a HackDescriptor (§3): a literal
byte sequence, a sized immediate value, or a relative reference of a given
field width.  The descriptor syntax of `binhack_str` is not part of the
sources. -/
inductive HackToken where
  | bytes (bs : List Nat)
  | imm (width : Nat) (value : Nat)
  | rel (width : Nat) (target : RefToken)
deriving Repr, DecidableEq

/-- Modelled from the spec: the renderer's failure taxonomy (§7). -/
inductive BinhackError where
  | MalformedHack
  | UnresolvedReference
  | BufferTooSmall
deriving Repr, DecidableEq

/-- Modelled from the spec: the expression resolver of §4.1 restricted to the
tokens a hack description can hold at render time; `caves` is the map of
allocated code caves. -/
def resolve (caves : List (String × Nat)) : RefToken → Option Nat
  | .literal a => some a
  | .cave name => caves.lookup name

/-- Modelled from the spec: size of one token in the size phase of §4.2.  A
literal that is not a byte and an immediate that does not fit its size
annotation are malformed; a relative field has its field width whatever it
resolves to. -/
def token_size : HackToken → Except BinhackError Nat
  | .bytes bs => if bs.all (fun b => decide (b < 256)) then .ok bs.length else .error .MalformedHack
  | .imm w v => if v < 256 ^ w then .ok w else .error .MalformedHack
  | .rel w _ => .ok w

/-- Modelled from the spec: `binhack_calc_size`, the size phase of §4.2 (its
body is not part of the sources): the exact number of bytes the description
occupies, computed without resolving any reference. -/
def binhack_calc_size : List HackToken → Except BinhackError Nat
  | [] => .ok 0
  | t :: rest =>
    match token_size t with
    | .error e => .error e
    | .ok n =>
      match binhack_calc_size rest with
      | .error e => .error e
      | .ok m => .ok (n + m)

/-- Modelled from the spec: the value of a relative-reference field of width
`w` at offset `off` of a hack rendered at `site` (§4.2):
`resolved_absolute_address − (target_address + field_offset + field_width)`,
in the arithmetic of a `w`-byte field. -/
def rel_value (target site off w : Nat) : Nat :=
  Int.toNat (((target : Int) - ((site : Int) + off + w)) % (256 : Int) ^ w)

/-- Modelled from the spec: the emission loop of the render phase; `off` is
the number of bytes already written. -/
def render_tokens (caves : List (String × Nat)) (site : Nat) :
    Nat → List HackToken → Except BinhackError (List Nat)
  | _, [] => .ok []
  | off, .bytes bs :: rest =>
    match render_tokens caves site (off + bs.length) rest with
    | .error e => .error e
    | .ok out => .ok (bs ++ out)
  | off, .imm w v :: rest =>
    match render_tokens caves site (off + w) rest with
    | .error e => .error e
    | .ok out => .ok (le_encode w v ++ out)
  | off, .rel w t :: rest =>
    match resolve caves t with
    | none => .error .UnresolvedReference
    | some a =>
      match render_tokens caves site (off + w) rest with
      | .error e => .error e
      | .ok out => .ok (le_encode w (rel_value a site off w) ++ out)

/-- Modelled from the spec: `binhack_render`, the render phase of §4.2 (its
body is not part of the sources).  `buf_size` is the size of the caller's
buffer, `target_addr` the address the bytes will occupy; the result is the
bytes written to the start of the buffer. -/
def binhack_render (caves : List (String × Nat)) (buf_size target_addr : Nat)
    (d : List HackToken) : Except BinhackError (List Nat) :=
  match binhack_calc_size d with
  | .error e => .error e
  | .ok n =>
    if buf_size < n then .error .BufferTooSmall
    else render_tokens caves target_addr 0 d

/-- Every reference of the description resolves in `caves`. -/
def refs_resolved (caves : List (String × Nat)) : List HackToken → Bool
  | [] => true
  | .rel _ t :: rest => (resolve caves t).isSome && refs_resolved caves rest
  | _ :: rest => refs_resolved caves rest

/-! ## JSON values (jansson) -/

/-- A parsed JSON value (`json_t`).  Objects keep their members in
insertion order; a `NULL` pointer is `none` at the places that take an
`Option json_t`. -/
inductive json_t where
  | null
  | jtrue
  | jfalse
  | integer (n : Int)
  | string (s : String)
  | array (items : List json_t)
  | object (members : List (String × json_t))

/-- Library `json_object_get`: the member `key` of `object`; `NULL` when
`object` is not an object, `key` is `NULL`, or there is no such member. -/
def json_object_get (object : Option json_t) (key : Option String) : Option json_t :=
  match object, key with
  | some (.object members), some k => members.lookup k
  | _, _ => none

/-- Library `json_string_value`: the text of a JSON string, `NULL` otherwise. -/
def json_string_value (val : Option json_t) : Option String :=
  match val with
  | some (.string s) => some s
  | _ => none

/-- Library `json_is_false`. -/
def json_is_false (val : Option json_t) : Bool :=
  match val with
  | some .jfalse => true
  | _ => false

/-- Library `json_is_true`. -/
def json_is_true (val : Option json_t) : Bool :=
  match val with
  | some .jtrue => true
  | _ => false

/-! ## Patch-set applier: counting (`binhack.h`) -/

/-- Modelled from the spec: the number of instances held by one configuration
entry (§4.8, §6): an ordered list holds one instance per element, a single
descriptor object is one instance. -/
def hackpoint_instances : json_t → Nat
  | .array items => items.length
  | _ => 1

/-- Modelled from the spec: `hackpoints_count` (§4.8 `count(config)`; its
body is not part of the sources): walks the address-keyed configuration and
adds up the instances of every entry. -/
def hackpoints_count (hackpoints : Option json_t) : Nat :=
  match hackpoints with
  | some (.object members) =>
    members.foldl (fun ret kv => ret + hackpoint_instances kv.2) 0
  | _ => 0

/-! ## Breakpoints (`breakpoint.h`) -/

/-- Register structure in PUSHAD+PUSHFD order (`x86_reg_t`). -/
structure x86_reg_t where
  flags : Nat
  edi : Nat
  esi : Nat
  ebp : Nat
  esp : Nat
  ebx : Nat
  edx : Nat
  ecx : Nat
  eax : Nat
  retaddr : Nat
deriving Repr, DecidableEq

/-- A pointer to one member of an `x86_reg_t`. -/
inductive reg_field where
  | flags | edi | esi | ebp | esp | ebx | edx | ecx | eax | retaddr
deriving Repr, DecidableEq

/-- Reading through a pointer to a register (`*reg_ptr`). -/
def x86_reg_t.get (regs : x86_reg_t) : reg_field → Nat
  | .flags => regs.flags
  | .edi => regs.edi
  | .esi => regs.esi
  | .ebp => regs.ebp
  | .esp => regs.esp
  | .ebx => regs.ebx
  | .edx => regs.edx
  | .ecx => regs.ecx
  | .eax => regs.eax
  | .retaddr => regs.retaddr

/-- Writing through a pointer to a register (`*reg_ptr = v`). -/
def x86_reg_t.set (regs : x86_reg_t) (f : reg_field) (v : Nat) : x86_reg_t :=
  match f with
  | .flags => { regs with flags := v }
  | .edi => { regs with edi := v }
  | .esi => { regs with esi := v }
  | .ebp => { regs with ebp := v }
  | .esp => { regs with esp := v }
  | .ebx => { regs with ebx := v }
  | .edx => { regs with edx := v }
  | .ecx => { regs with ecx := v }
  | .eax => { regs with eax := v }
  | .retaddr => { regs with retaddr := v }

/-- Breakpoint function type (`BreakpointFunc_t`): reads and writes the
registers, gets the breakpoint's JSON object, and returns an `int`.  `σ` is
whatever state of its own the handler keeps between calls. -/
abbrev BreakpointFunc_t (σ : Type) : Type :=
  σ → x86_reg_t → json_t → Int × σ × x86_reg_t

/-- Modelled from the spec: the combined resume decision of §4.6. -/
inductive ResumeDecision where
  | Skip
  | Continue
deriving Repr, DecidableEq

/-- Modelled from the spec: a BreakpointDescriptor of §3 after installation:
its configuration key, the handler the key resolved to, and the descriptor
object passed to the handler. -/
structure BreakpointDescriptor (σ : Type) where
  key : String
  func : BreakpointFunc_t σ
  json_obj : json_t

/-- Modelled from the spec: an InstalledBreakpoint of §3: trigger address,
code cave, and the descriptors active there in declaration order. -/
structure InstalledBreakpoint (σ : Type) where
  addr : Nat
  cave : Nat
  descriptors : List (BreakpointDescriptor σ)

/-- Modelled from the spec: the size of the call instruction written at a
trigger address (§3, §4.4), the fixed offset between a trigger address and the
return address of its snapshot. -/
def CALL_LEN : Nat := 5

/-- Modelled from the spec: the invocation loop of §4.6: every handler of the
list is called, in declaration order, on the snapshot as its predecessors left
it; the result lists each call's key and return value. -/
def run_handlers {σ : Type} :
    List (BreakpointDescriptor σ) → σ → x86_reg_t → List (String × Int) × σ × x86_reg_t
  | [], s, regs => ([], s, regs)
  | d :: rest, s, regs =>
    let r := d.func s regs d.json_obj
    let r2 := run_handlers rest r.2.1 r.2.2
    ((d.key, r.1) :: r2.1, r2.2.1, r2.2.2)

/-- Modelled from the spec: what one breakpoint firing leaves behind. -/
structure ProcessResult (σ : Type) where
  decision : ResumeDecision
  calls : List (String × Int)
  state : σ
  regs : x86_reg_t

/-- Modelled from the spec: `breakpoint_process` (§4.6; its body is not part
of the sources).  The trigger address is recovered from the return address of
the snapshot; an unbound address is treated as Continue; otherwise all
handlers run and the decision is Continue only if every handler returned 1.
The stack adjustment the C function returns is left open by the spec (§9) and
is not modelled. -/
def breakpoint_process {σ : Type} (installed : List (InstalledBreakpoint σ))
    (s : σ) (regs : x86_reg_t) : ProcessResult σ :=
  match installed.find? (fun bp => bp.addr + CALL_LEN == regs.retaddr) with
  | none => { decision := .Continue, calls := [], state := s, regs := regs }
  | some bp =>
    let r := run_handlers bp.descriptors s regs
    { decision := if r.1.all (fun c => c.2 == 1) then .Continue else .Skip,
      calls := r.1, state := r.2.1, regs := r.2.2 }

/-- State and registers after the handlers of `ds` have run in order. -/
def handlers_after {σ : Type} (ds : List (BreakpointDescriptor σ)) (s : σ) (regs : x86_reg_t) :
    σ × x86_reg_t :=
  ds.foldl (fun st d => (d.func st.1 st.2 d.json_obj).2) (s, regs)

/-- Modelled from the spec: the part of a configuration key that names the
handler (§4.7): the key up to, not including, its first `#`. -/
def breakpoint_key_base (key : String) : String :=
  String.mk (key.data.takeWhile (fun c => c != '#'))

/-- Modelled from the spec: `breakpoint_func_get` (§4.7; its body is not part
of the sources): looks the truncated key up, case-sensitively and under the
required `BP_` prefix, among the exported functions. -/
def breakpoint_func_get {F : Type} (exports : List (String × F)) (key : String) : Option F :=
  exports.lookup ("BP_" ++ breakpoint_key_base key)

/-- Modelled from the spec: `breakpoint_cave_exec_flag` (its body is not part
of the sources), after its declaration in `breakpoint.h` and §6: 0 if
`"cave_exec"` in `bp_info` is set to false, 1 otherwise. -/
def breakpoint_cave_exec_flag (bp_info : Option json_t) : Int :=
  if json_is_false (json_object_get bp_info (some "cave_exec")) then 0 else 1

/-- A handler that stores 1 in `eax` and returns 0 (Skip). -/
def sample_skip_handler : BreakpointFunc_t Unit :=
  fun s regs _ => (0, s, regs.set .eax 1)

/-- A handler that stores `eax + 1` in `ebx` and returns 1 (Continue). -/
def sample_continue_handler : BreakpointFunc_t Unit :=
  fun s regs _ => (1, s, regs.set .ebx (regs.eax + 1))

/-- One breakpoint at `0x401000` with the two sample handlers, in that order. -/
def sample_breakpoint : InstalledBreakpoint Unit :=
  { addr := 0x401000, cave := 0x10000000,
    descriptors := [⟨"first", sample_skip_handler, .null⟩,
                    ⟨"second#2", sample_continue_handler, .null⟩] }

/-- The snapshot of a firing of `sample_breakpoint`. -/
def sample_regs : x86_reg_t :=
  { flags := 0, edi := 0, esi := 0, ebp := 0, esp := 0, ebx := 0, edx := 0, ecx := 0,
    eax := 0, retaddr := 0x401005 }

/-! ## Generic plaintext translation (`gentext.c`) -/

/-- The `NUL` character that ends a C string. -/
def NUL : Char := Char.ofNat 0

/-- The C string held by a character buffer: its characters before the first `NUL`. -/
def cstr (buf : List Char) : List Char :=
  buf.takeWhile (fun c => c != NUL)

/-- Library `strncmp(a, b, n) == 0` on two character buffers. -/
def strncmp_eq (a b : List Char) (n : Nat) : Bool :=
  (cstr a).take n == (cstr b).take n

/-- Library `strncpy(dst, src, n)`: the first `n` bytes of `dst` become the C
string of `src`, cut at `n` or padded with `NUL`; the rest of `dst` is kept. -/
def strncpy (dst src : List Char) (n : Nat) : List Char :=
  (cstr src).take n ++ List.replicate (n - (cstr src).length) NUL ++ dst.drop n

/-- The thcrap functions `gentext.c` calls whose bodies are not part of the
sources, and the facts about the process that the C code reads from memory.
`reg_name` is the name matching of `reg`, `json_hex_value` the numeric reading
of a token, `json_object_get_string` the string value of a member of an
object, `json_flex_array_size` and `json_flex_array_items` the number of
elements of a flexible array and the elements `json_flex_array_foreach`
visits, `jsondata_game_get` the lookup of a loaded game data file,
`json_flex_array_get_string_safe` the string at an index of a flexible array,
`realloc_ok` whether `realloc` to a size succeeds, and `str_ptr` the address
at which a string value is stored. -/
structure GentextEnv where
  reg_name : String → Option reg_field
  json_hex_value : Option json_t → Nat
  json_object_get_string : Option json_t → String → Option String
  json_flex_array_size : Option json_t → Nat
  json_flex_array_items : json_t → List json_t
  jsondata_game_get : String → Option json_t
  json_flex_array_get_string_safe : Option json_t → Nat → Option String
  realloc_ok : Nat → Bool
  str_ptr : String → Nat

/-- Modelled from the spec: `reg` (its body is not part of the sources), after
its declaration in `breakpoint.h`: a pointer to the register `regname` in
`regs`, `NULL` when `regname` is `NULL` or names no register.  Which names
denote a register is `env.reg_name`; a pointer to a member of `regs` does not
depend on what the registers hold. -/
def reg (env : GentextEnv) (_regs : x86_reg_t) (regname : Option String) : Option reg_field :=
  match regname with
  | none => none
  | some name => env.reg_name name

/-- Modelled from the spec: `json_object_get_register` (its body is not part of
the sources), after its declaration in `breakpoint.h`: a pointer to the
register in `regs` specified by `key` in `object`. -/
def json_object_get_register (env : GentextEnv) (object : Option json_t) (regs : x86_reg_t)
    (key : String) : Option reg_field :=
  reg env regs (env.json_object_get_string object key)

/-- The function `json_register_value` of `gentext.c`. -/
def json_register_value (env : GentextEnv) (val : Option json_t) (regs : x86_reg_t) : Nat :=
  let str := json_string_value val
  let reg_ptr := reg env regs str
  match reg_ptr with
  | some p => regs.get p
  | none => env.json_hex_value val

/-- The type `gentext_cache_t` of `gentext.c`; `key` is the allocated
character buffer of `key_len` bytes, or `NULL`. -/
structure gentext_cache_t where
  file : Option json_t
  key_len : Nat
  key : Option (List Char)
  line : Nat

/-- The function `gentext_cache_key_set` of `gentext.c`.  `key` is the
caller's buffer.  A buffer grown by `realloc` is extended with `NUL`s here;
the `strncpy` that follows overwrites all `key_len` bytes of it. -/
def gentext_cache_key_set (env : GentextEnv) (gc : gentext_cache_t) (key : List Char)
    (key_len : Nat) : Int × gentext_cache_t :=
  let same :=
    match gc.key with
    | some k => strncmp_eq k key gc.key_len
    | none => false
  if same then (1, gc)
  else
    let gc1 : gentext_cache_t :=
      if key_len > gc.key_len then
        if env.realloc_ok key_len then
          { gc with
            key := some ((gc.key.getD []) ++ List.replicate (key_len - gc.key_len) NUL),
            key_len := key_len }
        else { gc with key := none, key_len := 0 }
      else gc
    let gc2 : gentext_cache_t :=
      match gc1.key with
      | some k => { gc1 with key := some (strncpy k key key_len) }
      | none => gc1
    (0, { gc2 with line := 0 })

/-- The text `snprintf(id_str, sizeof(id_str), "%u", id_val)` leaves in the
5-byte buffer `id_str`: at most 4 decimal digits. -/
def gentext_id_str (id_val : Nat) : List Char :=
  (toString (id_val % WORD)).data.take 4

/-- The key `BP_gentext` builds in `key_new`: the ids, resolved against the
registers, joined by `_`.  With no id at all the C buffer is left unwritten;
it is the empty string here. -/
def gentext_key_new (env : GentextEnv) (regs : x86_reg_t) (ids : List json_t) : List Char :=
  (ids.foldl
    (fun (acc : List Char × Nat) id =>
      let id_val := json_register_value env (some id) regs
      let p := if acc.2 > 0 then acc.1 ++ ['_'] else acc.1
      (p ++ gentext_id_str id_val, acc.2 + 1))
    ([], 0)).1

/-- The parameter handling of `BP_gentext` (its lines up to `if(str)`): the
cache after the `file`, `ids` and `line` parameters have been applied. -/
def gentext_cache_update (env : GentextEnv) (gc : gentext_cache_t) (regs : x86_reg_t)
    (bp_info : json_t) : gentext_cache_t :=
  let file := env.json_object_get_string (some bp_info) "file"
  let ids := json_object_get (some bp_info) (some "ids")
  let line := json_register_value env (json_object_get (some bp_info) (some "line")) regs
  let gc1 : gentext_cache_t :=
    match file with
    | some f => { gc with file := env.jsondata_game_get f }
    | none => gc
  let gc2 : gentext_cache_t :=
    match ids with
    | some v =>
      let key_new_len := (4 * 4 * env.json_flex_array_size ids + 1) % WORD
      let key_new := gentext_key_new env regs (env.json_flex_array_items v)
      (gentext_cache_key_set env gc1 (key_new ++ [NUL]) key_new_len).2
    | none => gc1
  if line ≠ 0 then { gc2 with line := line } else gc2

/-- The replacement line `BP_gentext` looks up for a cache state:
`json_flex_array_get_string_safe(json_object_get(gc->file, gc->key), gc->line)`. -/
def gentext_line (env : GentextEnv) (gc : gentext_cache_t) : Option String :=
  let id_val := json_object_get gc.file (gc.key.map (fun k => String.mk (cstr k)))
  env.json_flex_array_get_string_safe id_val gc.line

/-- The breakpoint function `BP_gentext` of `gentext.c`.  The thread-local
cache `gc_tls` is passed in and out. -/
def BP_gentext (env : GentextEnv) : BreakpointFunc_t gentext_cache_t :=
  fun gc regs bp_info =>
    let str := json_object_get_register env (some bp_info) regs "str"
    let gc3 := gentext_cache_update env gc regs bp_info
    match str with
    | some p =>
      let line := gentext_line env gc3
      let gc4 : gentext_cache_t := { gc3 with line := (gc3.line + 1) % WORD }
      match line with
      | some text =>
        (breakpoint_cave_exec_flag (some bp_info), gc4, regs.set p (env.str_ptr text))
      | none => (1, gc4, regs)
    | none => (1, gc3, regs)

/-- A sample environment for `gentext.c`: the eight general purpose registers
by their lower-case names, integers read as numbers, a flexible array being a
JSON array or a single value, and one game data file with two lines under the
key `12`. -/
def sample_gentext_env : GentextEnv :=
  { reg_name := fun name =>
      if name = "eax" then some .eax
      else if name = "ecx" then some .ecx
      else if name = "edx" then some .edx
      else if name = "ebx" then some .ebx
      else if name = "esp" then some .esp
      else if name = "ebp" then some .ebp
      else if name = "esi" then some .esi
      else if name = "edi" then some .edi
      else none,
    json_hex_value := fun v =>
      match v with
      | some (.integer n) => n.toNat
      | _ => 0,
    json_object_get_string := fun object key =>
      json_string_value (json_object_get object (some key)),
    json_flex_array_size := fun v =>
      match v with
      | none => 0
      | some (.array items) => items.length
      | some _ => 1,
    json_flex_array_items := fun v =>
      match v with
      | .array items => items
      | other => [other],
    jsondata_game_get := fun _ =>
      some (.object [("12", .array [.string "first line", .string "second line"])]),
    json_flex_array_get_string_safe := fun v i =>
      match v with
      | some (.array items) => json_string_value items[i]?
      | _ => none,
    realloc_ok := fun _ => true,
    str_ptr := fun text => 0x500000 + text.length }

/-- An empty `gentext_cache_t`, as `gc_tls` starts out. -/
def sample_gentext_cache : gentext_cache_t :=
  { file := none, key_len := 0, key := none, line := 0 }

/-- A `gentext` breakpoint that writes its line through `eax` and asks for the
original code to be skipped. -/
def sample_gentext_bp : json_t :=
  .object [("str", .string "eax"), ("file", .string "text.js"), ("ids", .integer 12),
           ("cave_exec", .jfalse)]

/-! ## Engine initialization (`init.c`) -/

/-- Library `json_object_set` / `json_object_set_new`: sets the member `key`
of an object, replacing an existing member of that name; no effect on
anything that is not an object. -/
def json_object_set (object : Option json_t) (key : String) (value : json_t) : Option json_t :=
  match object with
  | some (.object members) =>
    if members.any (fun kv => kv.1 == key) then
      some (.object (members.map (fun kv => if kv.1 == key then (key, value) else kv)))
    else some (.object (members ++ [(key, value)]))
  | other => other

/-- The run configuration `run_cfg` (a global of thcrap) together with the
rest of the process state `W` that the collaborators of `init.c` act on. -/
structure InitState (W : Type) where
  run_cfg : Option json_t
  world : W

/-- The functions `init.c` calls whose bodies are not part of the sources, as
functions of the process state, the static `dll_dir`, and the constants
`PROJECT_NAME_SHORT()` and `IDNO`.  `file_read` gives the file's bytes, or
`NULL`, and the size it stores through its second argument; `sha256` is the
digest computed by `sha256_init`, `sha256_update` and `sha256_final`;
`log_mboxf` gets the caption and the arguments of its format string and
returns the button pressed.  The two apply operations return what they report
to their caller. -/
structure InitEnv (W : Type) where
  dll_dir : String
  PROJECT_NAME_SHORT : String
  IDNO : Int
  GetModuleFileNameU : W → String
  GetCurrentDirectory : W → String
  SetCurrentDirectory : String → W → W
  json_load_file_report : String → W → Option json_t
  log_init : Bool → W → W
  log_printf : String → W → W
  log_mboxf : String → List String → W → Int × W
  patch_rel_to_abs : json_t → String → json_t
  patch_init : json_t → W → json_t × W
  stack_show_missing : W → W
  stack_json_resolve : String → W → Option json_t × W
  resolve_chain : String → W → Option json_t
  stack_json_resolve_chain : Option json_t → W → Option json_t × W
  file_read : String → W → Option (List Nat) × Nat
  sha256 : List Nat → List Nat
  json_object_numkey_get : Option json_t → Nat → Option json_t
  json_object_get_string : Option json_t → String → Option String
  json_hex_value : Option json_t → Nat
  w32u8_set_fallback_codepage : Nat → W → W
  PathFindExtensionA : String → String
  json_object_merge : json_t → Option json_t → json_t
  json_dump_log : Option json_t → W → W
  plugin_init : W → W
  plugins_load : W → W
  binhacks_apply : Option json_t → W → Int × W
  breakpoints_apply : Option json_t → W → Int × W
  iat_detour_apply : W → W

/-- Library `json_array_get`: the element at `index` of an array, `NULL`
otherwise. -/
def json_array_get (array : Option json_t) (index : Nat) : Option json_t :=
  match array with
  | some (.array items) => items[index]?
  | _ => none

/-- Library `json_array_size`: the number of elements of an array, 0 for
anything else. -/
def json_array_size (array : Option json_t) : Nat :=
  match array with
  | some (.array items) => items.length
  | _ => 0

/-- The two lower-case hexadecimal digits `sprintf("%02x")` prints for a byte. -/
def hex_byte (b : Nat) : List Char :=
  let digit := fun (n : Nat) => "0123456789abcdef".data.getD n '0'
  [digit (b / 16 % 16), digit (b % 16)]

/-- The function `identify_by_hash` of `init.c`: the version entry for the
file's hash, and the value left in `*file_size`. -/
def identify_by_hash {W : Type} (env : InitEnv W) (fn : String) (versions : Option json_t)
    (w : W) : Option json_t × Nat :=
  let r := env.file_read fn w
  match r.1 with
  | none => (none, r.2)
  | some file_buffer =>
    let hash := env.sha256 file_buffer
    let hash_str := String.mk ((List.range 32).flatMap (fun i => hex_byte (hash.getD i 0)))
    (json_object_get (json_object_get versions (some "hashes")) (some hash_str), r.2)

/-- The function `identify_by_size` of `init.c`. -/
def identify_by_size {W : Type} (env : InitEnv W) (file_size : Nat)
    (versions : Option json_t) : Option json_t :=
  env.json_object_numkey_get (json_object_get versions (some "sizes")) file_size

/-- The function `stack_cfg_resolve` of `init.c`, called with a `NULL`
`file_size`. -/
def stack_cfg_resolve {W : Type} (env : InitEnv W) (fn : String) (w : W) : Option json_t × W :=
  let chain := env.resolve_chain fn w
  if json_array_size chain ≠ 0 then
    let chain :=
      match chain with
      | some (.array items) => some (json_t.array (.string "global.js" :: items))
      | other => other
    let w := env.log_printf ("(JSON) Resolving configuration for " ++ fn ++ "... ") w
    env.stack_json_resolve_chain chain w
  else (none, w)

/-- The part of `identify` after the version entry `id_array` has been found;
`size_cmp` tells whether it was found by file size only.  A `NULL` string
prints as `(null)`, and `json_decref_safe` leaves `NULL` in `run_ver`. -/
def identify_version {W : Type} (env : InitEnv W) (exe_fn : String) (id_array : Option json_t)
    (size_cmp : Bool) (st : InitState W) : Option json_t × InitState W :=
  let game_obj := json_array_get id_array 0
  let build_obj := json_array_get id_array 1
  let variety_obj := json_array_get id_array 2
  let codepage_obj := json_array_get id_array 3
  let variety := json_string_value variety_obj
  let codepage := env.json_hex_value codepage_obj
  match json_string_value game_obj, json_string_value build_obj, game_obj, build_obj with
  | some game, some build, some game_obj, some build_obj =>
    let w := if codepage ≠ 0 then env.w32u8_set_fallback_codepage codepage st.world else st.world
    let run_cfg := json_object_set st.run_cfg "build" build_obj
    let w := env.log_printf
      ("→ " ++ game ++ " " ++ build ++ " " ++ variety.getD "(null)"
        ++ " (codepage " ++ toString codepage ++ ")\n") w
    let r :=
      if (env.PathFindExtensionA game).toLower ≠ ".js" then
        stack_cfg_resolve env (game ++ ".js") w
      else stack_cfg_resolve env game w
    let run_ver : json_t := r.1.getD (.object [])
    let run_ver : Option json_t :=
      if (env.json_object_get_string (some run_ver) "game").isNone then
        json_object_set (some run_ver) "game" game_obj
      else some run_ver
    if size_cmp then
      let game_title := env.json_object_get_string run_ver "title"
      let game := game_title.getD game
      let m := env.log_mboxf "Unknown version detected"
        [env.PROJECT_NAME_SHORT, game, build, variety.getD "(null)", exe_fn] r.2
      if m.1 = env.IDNO then (none, { run_cfg := run_cfg, world := m.2 })
      else (run_ver, { run_cfg := run_cfg, world := m.2 })
    else (run_ver, { run_cfg := run_cfg, world := r.2 })
  | _, _, _, _ =>
    (none, { st with world := env.log_printf "Invalid version format!" st.world })

/-- The function `identify` of `init.c`: the configuration of the identified
game version, or `NULL`; it writes the build into `run_cfg`. -/
def identify {W : Type} (env : InitEnv W) (exe_fn : String) (st : InitState W) :
    Option json_t × InitState W :=
  let v := env.stack_json_resolve "versions.js" st.world
  match v.1 with
  | none => (none, { st with world := v.2 })
  | some versions_js =>
    let w := env.log_printf "Hashing executable... " v.2
    let h := identify_by_hash env exe_fn (some versions_js) w
    match h.1 with
    | some id_array => identify_version env exe_fn (some id_array) false { st with world := w }
    | none =>
      let w := env.log_printf "failed!\n" w
      let w := env.log_printf "File size lookup... " w
      match identify_by_size env h.2 (some versions_js) with
      | some id_array => identify_version env exe_fn (some id_array) true { st with world := w }
      | none => (none, { st with world := env.log_printf "failed!\n" w })

/-- The function `thcrap_detour` of `init.c`. -/
def thcrap_detour {W : Type} (env : InitEnv W) (w : W) : W :=
  let mod_name := env.GetModuleFileNameU w
  let w1 := env.log_printf
    ("Applying " ++ env.PROJECT_NAME_SHORT ++ " detours to " ++ mod_name ++ "...\n") w
  env.iat_detour_apply w1

/-- The loop `json_array_foreach(patches, i, patch_info)` of `thcrap_init`:
every patch is made absolute, initialized, and stored back at its index. -/
def init_patches {W : Type} (env : InitEnv W) (run_cfg_fn : String) :
    List json_t → W → List json_t × W
  | [], w => ([], w)
  | patch_info :: rest, w =>
    let r := env.patch_init (env.patch_rel_to_abs patch_info run_cfg_fn) w
    let r2 := init_patches env run_cfg_fn rest r.2
    (r.1 :: r2.1, r2.2)

/-- The first part of `thcrap_init` (`init.c`), from its start up to and
including `plugins_load()`: the run configuration and the process state in
which the binary hacks are about to be applied.  `runconfig_set` is taken to
make its argument the global `run_cfg` without copying it, so that `user_cfg`
and `run_cfg` are one object until `identify` has produced a full
configuration. -/
def thcrap_init_setup {W : Type} (env : InitEnv W) (run_cfg_fn : String) (st : InitState W) :
    InitState W :=
  let exe_fn := env.GetModuleFileNameU st.world
  let game_dir := env.GetCurrentDirectory st.world
  let w := env.SetCurrentDirectory env.dll_dir st.world
  -- user_cfg = json_load_file_report(run_cfg_fn); runconfig_set(user_cfg);
  let run_cfg := env.json_load_file_report run_cfg_fn w
  let w := env.log_init (json_is_true (json_object_get run_cfg (some "console"))) w
  let run_cfg := json_object_set run_cfg "thcrap_dir" (.string env.dll_dir)
  let run_cfg := json_object_set run_cfg "run_cfg_fn" (.string run_cfg_fn)
  let w := env.log_printf ("Run configuration file: " ++ run_cfg_fn ++ "\n\n") w
  let w := env.log_printf "Initializing patches...\n" w
  let st1 : InitState W :=
    match json_object_get run_cfg (some "patches") with
    | some (.array patches) =>
      let r := init_patches env run_cfg_fn patches w
      { run_cfg := json_object_set run_cfg "patches" (.array r.1), world := r.2 }
    | _ => { run_cfg := run_cfg, world := w }
  let st2 : InitState W := { st1 with world := env.stack_show_missing st1.world }
  let st3 : InitState W :=
    { st2 with world := env.log_printf ("EXE file name: " ++ exe_fn ++ "\n") st2.world }
  let id := identify env exe_fn st3
  let st4 : InitState W :=
    match id.1 with
    | some full_cfg =>
      { id.2 with run_cfg := some (env.json_object_merge full_cfg id.2.run_cfg) }
    | none => id.2
  let w := env.log_printf "---------------------------\n" st4.world
  let w := env.log_printf "Complete run configuration:\n" w
  let w := env.log_printf "---------------------------\n" w
  let w := env.json_dump_log st4.run_cfg w
  let w := env.log_printf "---------------------------\n" w
  let w := env.log_printf ("Game directory: " ++ game_dir ++ "\n") w
  let w := env.log_printf ("Plug-in directory: " ++ env.dll_dir ++ "\n") w
  let w := env.log_printf "\nInitializing plug-ins...\n" w
  let w := env.plugin_init w
  let w := env.plugins_load w
  { run_cfg := st4.run_cfg, world := w }

/-- The function `thcrap_init` of `init.c`: `thcrap_init_setup`, followed by
the statements from `binhacks_apply(...)` to `return 0`. -/
def thcrap_init {W : Type} (env : InitEnv W) (run_cfg_fn : String) (st : InitState W) :
    Int × InitState W :=
  let game_dir := env.GetCurrentDirectory st.world
  let pre := thcrap_init_setup env run_cfg_fn st
  let w := (env.binhacks_apply (json_object_get pre.run_cfg (some "binhacks")) pre.world).2
  let w := (env.breakpoints_apply (json_object_get pre.run_cfg (some "breakpoints")) w).2
  let w := thcrap_detour env w
  let w := env.SetCurrentDirectory game_dir w
  (0, { run_cfg := pre.run_cfg, world := w })

/-- The environment `env` with the values its two apply operations report
replaced by `b` and `p`; what they do to the process is unchanged. -/
def with_apply_results {W : Type} (env : InitEnv W) (b p : Int) : InitEnv W :=
  { env with
    binhacks_apply := fun cfg w => (b, (env.binhacks_apply cfg w).2),
    breakpoints_apply := fun cfg w => (p, (env.breakpoints_apply cfg w).2) }

/-- A sample environment over a process state that records the calls made:
the run configuration holds one binary hack and one breakpoint, there is no
`versions.js`, and the apply operations report `b` and `p`. -/
def sample_init_env (b p : Int) : InitEnv (List String) :=
  { dll_dir := "C:/thcrap/",
    PROJECT_NAME_SHORT := "thcrap",
    IDNO := 7,
    GetModuleFileNameU := fun _ => "C:/game/th.exe",
    GetCurrentDirectory := fun _ => "C:/game",
    SetCurrentDirectory := fun dir w => w ++ ["SetCurrentDirectory " ++ dir],
    json_load_file_report := fun _ _ =>
      some (.object [("binhacks", .object [("0x401000", .string "9090")]),
                     ("breakpoints", .object [("0x402000", .object [])])]),
    log_init := fun _ w => w ++ ["log_init"],
    log_printf := fun _ w => w,
    log_mboxf := fun _ _ w => (6, w),
    patch_rel_to_abs := fun patch_info _ => patch_info,
    patch_init := fun patch_info w => (patch_info, w ++ ["patch_init"]),
    stack_show_missing := fun w => w,
    stack_json_resolve := fun _ w => (none, w),
    resolve_chain := fun _ _ => none,
    stack_json_resolve_chain := fun _ w => (none, w),
    file_read := fun _ _ => (none, 0),
    sha256 := fun _ => List.replicate 32 0,
    json_object_numkey_get := fun _ _ => none,
    json_object_get_string := fun object key =>
      json_string_value (json_object_get object (some key)),
    json_hex_value := fun _ => 0,
    w32u8_set_fallback_codepage := fun _ w => w,
    PathFindExtensionA := fun _ => "",
    json_object_merge := fun full_cfg _ => full_cfg,
    json_dump_log := fun _ w => w,
    plugin_init := fun w => w ++ ["plugin_init"],
    plugins_load := fun w => w ++ ["plugins_load"],
    binhacks_apply := fun _ w => (b, w ++ ["binhacks_apply"]),
    breakpoints_apply := fun _ w => (p, w ++ ["breakpoints_apply"]),
    iat_detour_apply := fun w => w ++ ["iat_detour_apply"] }

/-! ## ANM patching (`anm.c`)

A `png_bytep` is a byte buffer together with an offset into it; a store
through a pointer outside its buffer does nothing and a load from there
gives 0 (the C code has no defined behaviour in either case). -/

/-- The texture formats of `format_t`.  `anm.h`, which declares it, is not
part of the sources; the enumerators are those `anm.c` names, and `unknown` is
any other value, the `default:` of the switches. -/
inductive format_t where
  | FORMAT_BGRA8888
  | FORMAT_RGB565
  | FORMAT_ARGB4444
  | FORMAT_GRAY8
  | unknown (value : Nat)
deriving Repr, DecidableEq

/-- The function `format_Bpp` of `anm.c`. -/
def format_Bpp (format : format_t) : Nat :=
  match format with
  | .FORMAT_BGRA8888 => 4
  | .FORMAT_ARGB4444 => 2
  | .FORMAT_RGB565 => 2
  | .FORMAT_GRAY8 => 1
  | .unknown _ => 0

/-- The function `format_alpha_max` of `anm.c`. -/
def format_alpha_max (format : format_t) : Nat :=
  match format with
  | .FORMAT_BGRA8888 => 0xff
  | .FORMAT_ARGB4444 => 0xf
  | _ => 0

/-- The `FORMAT_BGRA8888` loop of `format_alpha_sum`. -/
def alpha_sum_bgra8888 (data : List Nat) : Nat → Nat → Nat → Nat
  | 0, _, ret => ret
  | n + 1, off, ret => alpha_sum_bgra8888 data n (off + 4) ((ret + data.getD (off + 3) 0) % WORD)

/-- The `FORMAT_ARGB4444` loop of `format_alpha_sum`. -/
def alpha_sum_argb4444 (data : List Nat) : Nat → Nat → Nat → Nat
  | 0, _, ret => ret
  | n + 1, off, ret =>
    alpha_sum_argb4444 data n (off + 2) ((ret + ((data.getD (off + 1) 0 &&& 0xf0) >>> 4)) % WORD)

/-- The function `format_alpha_sum` of `anm.c`; `data` points at offset `off`. -/
def format_alpha_sum (data : List Nat) (off pixels : Nat) (format : format_t) : Nat :=
  match format with
  | .FORMAT_BGRA8888 => alpha_sum_bgra8888 data pixels off 0
  | .FORMAT_ARGB4444 => alpha_sum_argb4444 data pixels off 0
  | _ => 0

/-- The `FORMAT_ARGB4444` loop of `format_from_bgra`: `inp` and `out` are the
offsets of the pointers `in` and `out` into the one buffer `data`. -/
def from_bgra_argb4444 : Nat → List Nat → Nat → Nat → List Nat
  | 0, data, _, _ => data
  | n + 1, data, inp, out =>
    let b := data.getD inp 0 >>> 4
    let g := data.getD (inp + 1) 0 >>> 4
    let r := data.getD (inp + 2) 0 >>> 4
    let a := data.getD (inp + 3) 0 >>> 4
    let data := data.set (out + 1) (((a <<< 4) ||| r) % 256)
    let data := data.set out (((g <<< 4) ||| b) % 256)
    from_bgra_argb4444 n data (inp + 4) (out + 2)

/-- The `FORMAT_RGB565` loop of `format_from_bgra`; the 16-bit store is
little-endian. -/
def from_bgra_rgb565 : Nat → List Nat → Nat → Nat → List Nat
  | 0, data, _, _ => data
  | n + 1, data, inp, out =>
    let b := data.getD inp 0 >>> 3
    let g := data.getD (inp + 1) 0 >>> 2
    let r := data.getD (inp + 2) 0 >>> 3
    let v := ((r <<< 11) ||| (g <<< 5) ||| b) % 65536
    let data := data.set out (v % 256)
    let data := data.set (out + 1) (v / 256)
    from_bgra_rgb565 n data (inp + 4) (out + 2)

/-- The function `format_from_bgra` of `anm.c`, on the buffer `data` points to. -/
def format_from_bgra (data : List Nat) (pixels : Nat) (format : format_t) : List Nat :=
  match format with
  | .FORMAT_ARGB4444 => from_bgra_argb4444 pixels data 0 0
  | .FORMAT_RGB565 => from_bgra_rgb565 pixels data 0 0
  | _ => data

/-- Library `memcpy(dst + d, src + s, n)` between two buffers. -/
def memcpy (dst : List Nat) (d : Nat) (src : List Nat) (s : Nat) : Nat → List Nat
  | 0 => dst
  | n + 1 => (memcpy dst d src s n).set (d + n) (src.getD (s + n) 0)

/-- The type `BlitFunc_t`: destination pointer, replacement pointer, number of
pixels, format; the result is the destination buffer afterwards. -/
abbrev BlitFunc_t : Type :=
  List Nat → Nat → List Nat → Nat → Nat → format_t → List Nat

/-- The function `format_copy` of `anm.c`. -/
def format_copy : BlitFunc_t :=
  fun dst d rep r pixels format => memcpy dst d rep r (pixels * format_Bpp format)

/-- One iteration of the `FORMAT_BGRA8888` loop of `format_blend`. -/
def blend_bgra8888_pixel (dst : List Nat) (d : Nat) (rep : List Nat) (r : Nat) : List Nat :=
  let new_alpha := dst.getD (d + 3) 0 + rep.getD (r + 3) 0
  let dst_alpha := 0xff - rep.getD (r + 3) 0
  let dst := dst.set d
    (((dst.getD d 0 * dst_alpha + rep.getD r 0 * rep.getD (r + 3) 0) >>> 8) % 256)
  let dst := dst.set (d + 1)
    (((dst.getD (d + 1) 0 * dst_alpha + rep.getD (r + 1) 0 * rep.getD (r + 3) 0) >>> 8) % 256)
  let dst := dst.set (d + 2)
    (((dst.getD (d + 2) 0 * dst_alpha + rep.getD (r + 2) 0 * rep.getD (r + 3) 0) >>> 8) % 256)
  dst.set (d + 3) (min new_alpha 0xff % 256)

/-- One iteration of the `FORMAT_ARGB4444` loop of `format_blend`. -/
def blend_argb4444_pixel (dst : List Nat) (d : Nat) (rep : List Nat) (r : Nat) : List Nat :=
  let rep_a := (rep.getD (r + 1) 0 &&& 0xf0) >>> 4
  let rep_r := (rep.getD (r + 1) 0 &&& 0x0f) >>> 0
  let rep_g := (rep.getD r 0 &&& 0xf0) >>> 4
  let rep_b := (rep.getD r 0 &&& 0x0f) >>> 0
  let dst_a := (dst.getD (d + 1) 0 &&& 0xf0) >>> 4
  let dst_r := (dst.getD (d + 1) 0 &&& 0x0f) >>> 0
  let dst_g := (dst.getD d 0 &&& 0xf0) >>> 4
  let dst_b := (dst.getD d 0 &&& 0x0f) >>> 0
  let new_alpha := dst_a + rep_a
  let dst_alpha := 0xf - rep_a
  let dst := dst.set (d + 1)
    (((min new_alpha 0xf <<< 4) ||| ((dst_r * dst_alpha + rep_r * rep_a) >>> 4)) % 256)
  dst.set d
    ((((dst_g * dst_alpha + rep_g * rep_a) &&& 0xf0)
      ||| ((dst_b * dst_alpha + rep_b * rep_a) >>> 4)) % 256)

/-- The `FORMAT_BGRA8888` loop of `format_blend`. -/
def blend_bgra8888 : Nat → List Nat → Nat → List Nat → Nat → List Nat
  | 0, dst, _, _, _ => dst
  | n + 1, dst, d, rep, r => blend_bgra8888 n (blend_bgra8888_pixel dst d rep r) (d + 4) rep (r + 4)

/-- The `FORMAT_ARGB4444` loop of `format_blend`. -/
def blend_argb4444 : Nat → List Nat → Nat → List Nat → Nat → List Nat
  | 0, dst, _, _, _ => dst
  | n + 1, dst, d, rep, r => blend_argb4444 n (blend_argb4444_pixel dst d rep r) (d + 2) rep (r + 2)

/-- The function `format_blend` of `anm.c`. -/
def format_blend : BlitFunc_t :=
  fun dst d rep r pixels format =>
    match format with
    | .FORMAT_BGRA8888 => blend_bgra8888 pixels dst d rep r
    | .FORMAT_ARGB4444 => blend_argb4444 pixels dst d rep r
    | _ => format_copy dst d rep r pixels format

/-- The alpha value of the pixel at offset `off` of `data`, read the way
`format_alpha_sum` reads it. -/
def pixel_alpha (format : format_t) (data : List Nat) (off : Nat) : Nat :=
  match format with
  | .FORMAT_BGRA8888 => data.getD (off + 3) 0
  | .FORMAT_ARGB4444 => (data.getD (off + 1) 0 &&& 0xf0) >>> 4
  | _ => 0

/-- Library `ZeroMemory(buf, n)`: the first `n` bytes of `buf` become 0. -/
def ZeroMemory (buf : List Nat) : Nat → List Nat
  | 0 => buf
  | n + 1 => (ZeroMemory buf n).set n 0

/-- The function `struct_get` of `anm.c`.  `json_object_get_hex` is the thcrap
helper of that name, whose body is not part of the sources; `dest` is a buffer
of `dest_size` bytes, `src` the structure read from, and `sizeof(size_t)` is 4.
The result is the return value and `dest` afterwards. -/
def struct_get (json_object_get_hex : Option json_t → String → Nat)
    (dest : Option (List Nat)) (dest_size : Nat) (src : Option (List Nat))
    (spec : Option json_t) : Int × Option (List Nat) :=
  match dest, src, spec with
  | some d, some s, some _ =>
    if dest_size = 0 then (-1, dest)
    else
      let offset := json_object_get_hex spec "offset"
      let size := json_object_get_hex spec "size"
      -- Default to architecture word size
      let size := if size = 0 then 4 else size
      if size > dest_size then (-2, dest)
      else
        let zeroed := ZeroMemory d dest_size
        (0, some (memcpy zeroed 0 s offset size))
  | _, _, _ => (-1, dest)

/-- The texture header `thtx_header_t` with the pixel data that follows it.
`anm.h`, which declares it, is not part of the sources; the members are those
the patching functions of `anm.c` use. -/
structure thtx_header_t where
  format : format_t
  w : Nat
  h : Nat
  data : List Nat
deriving Repr, DecidableEq

/-- A sprite rectangle `sprite_local_t` (declared in `anm.h`, members as used
in `anm.c`). -/
structure sprite_local_t where
  x : Nat
  y : Nat
  w : Nat
  h : Nat
deriving Repr, DecidableEq

/-- The members of `anm_entry_t` (declared in `anm.h`) that the patching
functions of `anm.c` read. -/
structure anm_entry_t where
  x : Nat
  y : Nat
  thtx : Option thtx_header_t
  sprites : Option (List sprite_local_t)
  sprite_num : Nat
deriving Repr, DecidableEq

/-- A decoded replacement image `png_image_ex` (declared in `png_ex.h`, members
as used in `anm.c`): the dimensions of `img` and the pixel buffer `buf`. -/
structure png_image_ex where
  width : Nat
  height : Nat
  buf : Option (List Nat)
deriving Repr, DecidableEq

/-- The blitting parameters `sprite_patch_t` (declared in `anm.h`, members as
set by `sprite_patch_set`).  `dst_buf` and `rep_buf` are offsets into the
texture data and into the image buffer. -/
structure sprite_patch_t where
  format : format_t
  bpp : Nat
  dst_x : Nat
  dst_y : Nat
  rep_x : Nat
  rep_y : Nat
  rep_stride : Nat
  dst_stride : Nat
  copy_w : Nat
  copy_h : Nat
  dst_buf : Nat
  rep_buf : Nat
deriving Repr, DecidableEq

/-- The result of `ZeroMemory(sp, sizeof(*sp))`; the zero format is not one of
the known ones. -/
def sprite_patch_zero : sprite_patch_t :=
  { format := .unknown 0, bpp := 0, dst_x := 0, dst_y := 0, rep_x := 0, rep_y := 0,
    rep_stride := 0, dst_stride := 0, copy_w := 0, copy_h := 0, dst_buf := 0, rep_buf := 0 }

/-- The function `sprite_patch_set` of `anm.c`; `sp` is the structure the
caller passes the address of, the result is the return value and `*sp`. -/
def sprite_patch_set (sp : sprite_patch_t) (entry : Option anm_entry_t)
    (sprite : Option sprite_local_t) (image : Option png_image_ex) : Int × sprite_patch_t :=
  match entry, sprite, image with
  | some entry, some sprite, some image =>
    match entry.thtx, image.buf with
    | some thtx, some _ =>
      let sp := sprite_patch_zero
      let sp := { sp with format := thtx.format }
      let sp := { sp with bpp := format_Bpp sp.format }
      let sp := { sp with dst_x := sprite.x }
      let sp := { sp with dst_y := sprite.y }
      let sp := { sp with rep_x := (entry.x + sp.dst_x) % WORD }
      let sp := { sp with rep_y := (entry.y + sp.dst_y) % WORD }
      if sp.dst_x ≥ thtx.w ∨ sp.dst_y ≥ thtx.h ∨
          sp.rep_x ≥ image.width ∨ sp.rep_y ≥ image.height then
        (2, sp)
      else
        let sp := { sp with rep_stride := (image.width * sp.bpp) % WORD }
        let sp := { sp with dst_stride := (thtx.w * sp.bpp) % WORD }
        let sp := { sp with copy_w := min sprite.w (image.width - sp.rep_x) }
        let sp := { sp with copy_h := min sprite.h (image.height - sp.rep_y) }
        let sp := { sp with dst_buf := sp.dst_y * sp.dst_stride + sp.dst_x * sp.bpp }
        let sp := { sp with rep_buf := sp.rep_y * sp.rep_stride + sp.rep_x * sp.bpp }
        (0, sp)
    | _, _ => (-1, sp)
  | _, _, _ => (-1, sp)

/-- The values of `sprite_alpha_t` (declared in `anm.h`, enumerators as named
in `anm.c`). -/
inductive sprite_alpha_t where
  | SPRITE_ALPHA_EMPTY
  | SPRITE_ALPHA_OPAQUE
  | SPRITE_ALPHA_FULL
deriving Repr, DecidableEq

/-- The row loop of `sprite_alpha_analyze`: `h` rows remain, `p` is the offset
of the current row, `ret` the value so far. -/
def alpha_analyze_rows (buf : List Nat) (format : format_t) (stride w opaque_sum : Nat) :
    Nat → Nat → sprite_alpha_t → sprite_alpha_t
  | 0, _, ret => ret
  | h + 1, p, ret =>
    let sum := format_alpha_sum buf p w format
    if sum = 0x00 ∧ ret ≠ .SPRITE_ALPHA_OPAQUE then
      alpha_analyze_rows buf format stride w opaque_sum h (p + stride) .SPRITE_ALPHA_EMPTY
    else if sum = opaque_sum ∧ ret ≠ .SPRITE_ALPHA_EMPTY then
      alpha_analyze_rows buf format stride w opaque_sum h (p + stride) .SPRITE_ALPHA_OPAQUE
    else .SPRITE_ALPHA_FULL

/-- The function `sprite_alpha_analyze` of `anm.c`; the pointer `buf` is a
buffer and an offset, or `NULL`. -/
def sprite_alpha_analyze (buf : Option (List Nat × Nat)) (format : format_t)
    (stride w h : Nat) : sprite_alpha_t :=
  let opaque_sum := (format_alpha_max format * w) % WORD
  match buf with
  | none => .SPRITE_ALPHA_EMPTY
  | some (data, off) =>
    if opaque_sum = 0 then .SPRITE_ALPHA_OPAQUE
    else alpha_analyze_rows data format stride w opaque_sum h off .SPRITE_ALPHA_FULL

/-- The function `sprite_alpha_analyze_rep` of `anm.c`, for a non-`NULL` `sp`
whose `rep_buf` points into `rep`. -/
def sprite_alpha_analyze_rep (sp : sprite_patch_t) (rep : List Nat) : sprite_alpha_t :=
  sprite_alpha_analyze (some (rep, sp.rep_buf)) sp.format sp.rep_stride sp.copy_w sp.copy_h

/-- The function `sprite_alpha_analyze_dst` of `anm.c`, for a non-`NULL` `sp`
whose `dst_buf` points into `dst`. -/
def sprite_alpha_analyze_dst (sp : sprite_patch_t) (dst : List Nat) : sprite_alpha_t :=
  sprite_alpha_analyze (some (dst, sp.dst_buf)) sp.format sp.dst_stride sp.copy_w sp.copy_h

/-- The row loop of `sprite_blit`: `rows` rows remain, `dst_p` and `rep_p` are
the offsets of the current rows. -/
def sprite_blit_rows (sp : sprite_patch_t) (func : BlitFunc_t) (rep : List Nat) :
    Nat → List Nat → Nat → Nat → List Nat
  | 0, dst, _, _ => dst
  | rows + 1, dst, dst_p, rep_p =>
    sprite_blit_rows sp func rep rows (func dst dst_p rep rep_p sp.copy_w sp.format)
      (dst_p + sp.dst_stride) (rep_p + sp.rep_stride)

/-- The function `sprite_blit` of `anm.c`, for a non-`NULL` `sp`; `func` may be
`NULL`.  The result is the return value and the texture data. -/
def sprite_blit (sp : sprite_patch_t) (func : Option BlitFunc_t) (dst rep : List Nat) :
    Int × List Nat :=
  match func with
  | some f => (0, sprite_blit_rows sp f rep sp.copy_h dst sp.dst_buf sp.rep_buf)
  | none => (-1, dst)

/-- The function `sprite_patch` of `anm.c`, for a non-`NULL` `sp`: the return
value and the texture data afterwards. -/
def sprite_patch (sp : sprite_patch_t) (dst rep : List Nat) : sprite_alpha_t × List Nat :=
  let rep_alpha := sprite_alpha_analyze_rep sp rep
  if rep_alpha ≠ .SPRITE_ALPHA_EMPTY then
    let dst_alpha := sprite_alpha_analyze_dst sp dst
    let func : BlitFunc_t :=
      if dst_alpha = .SPRITE_ALPHA_OPAQUE then format_blend else format_copy
    (rep_alpha, (sprite_blit sp (some func) dst rep).2)
  else (rep_alpha, dst)

/-- The body of the sprite loop of `patch_thtx` for one sprite: the sprite is
patched if `sprite_patch_set` returns 0 for it, and skipped otherwise. -/
def patch_thtx_sprite (entry : anm_entry_t) (image : png_image_ex) (rep : List Nat)
    (sprite : Option sprite_local_t) (thtx : thtx_header_t) : thtx_header_t :=
  let r := sprite_patch_set sprite_patch_zero (some { entry with thtx := some thtx })
    sprite (some image)
  if r.1 = 0 then { thtx with data := (sprite_patch r.2 thtx.data rep).2 } else thtx

/-- The sprite loop of `patch_thtx`: sprites `i`, `i + 1`, … up to `sprite_num`,
`n` of them remaining; the result is the texture afterwards. -/
def patch_thtx_sprites (entry : anm_entry_t) (image : png_image_ex) (sprites : List sprite_local_t)
    (rep : List Nat) : Nat → Nat → thtx_header_t → thtx_header_t
  | 0, _, thtx => thtx
  | n + 1, i, thtx =>
    patch_thtx_sprites entry image sprites rep n (i + 1)
      (patch_thtx_sprite entry image rep sprites[i]? thtx)

/-- The `else` branch of `patch_thtx`: a fake sprite covering the entire
texture is constructed and patched.  `alpha_value` is the integer value of a
`sprite_alpha_t`, which `anm.h` fixes. -/
def patch_thtx_fake_sprite (alpha_value : sprite_alpha_t → Int) (e : anm_entry_t)
    (img : png_image_ex) (thtx : thtx_header_t) (rep : List Nat) : Int × Option anm_entry_t :=
  let sprite : sprite_local_t := { x := 0, y := 0, w := thtx.w, h := thtx.h }
  let r := sprite_patch_set sprite_patch_zero (some e) (some sprite) (some img)
  if r.1 = 0 then
    let res := sprite_patch r.2 thtx.data rep
    (alpha_value res.1, some { e with thtx := some { thtx with data := res.2 } })
  else (0, some e)

/-- The function `patch_thtx` of `anm.c`: the return value and the entry with
its texture data afterwards.  `alpha_value` is the integer value of a
`sprite_alpha_t`, which `anm.h` fixes. -/
def patch_thtx (alpha_value : sprite_alpha_t → Int) (entry : Option anm_entry_t)
    (image : Option png_image_ex) : Int × Option anm_entry_t :=
  match entry, image with
  | some e, some img =>
    match e.thtx, img.buf with
    | some thtx, some rep =>
      match e.sprites with
      | some sprites =>
        if e.sprite_num > 1 then
          (0, some { e with
            thtx := some (patch_thtx_sprites e img sprites rep e.sprite_num 0 thtx) })
        else patch_thtx_fake_sprite alpha_value e img thtx rep
      | none => patch_thtx_fake_sprite alpha_value e img thtx rep
    | _, _ => (-1, entry)
  | _, _ => (-1, entry)

/-- The texture data of an entry, empty without a texture. -/
def entry_data (entry : Option anm_entry_t) : List Nat :=
  match entry with
  | some e =>
    match e.thtx with
    | some thtx => thtx.data
    | none => []
  | none => []

/-- The values of `sprite_alpha_t` numbered in the order of its enumerators. -/
def sample_alpha_value : sprite_alpha_t → Int
  | .SPRITE_ALPHA_EMPTY => 0
  | .SPRITE_ALPHA_OPAQUE => 1
  | .SPRITE_ALPHA_FULL => 2

/-- A 2×1 `FORMAT_BGRA8888` texture, fully transparent, with exactly one
sprite: the left pixel. -/
def sample_entry : anm_entry_t :=
  { x := 0, y := 0,
    thtx := some { format := .FORMAT_BGRA8888, w := 2, h := 1,
                   data := [1, 2, 3, 0, 4, 5, 6, 0] },
    sprites := some [{ x := 0, y := 0, w := 1, h := 1 }],
    sprite_num := 1 }

/-- A 2×1 replacement image with two opaque pixels. -/
def sample_image : png_image_ex :=
  { width := 2, height := 1, buf := some [10, 20, 30, 255, 40, 50, 60, 255] }

/-- A sample `json_object_get_hex`: the value of an integer member, 0 for a
member that is absent or not an integer. -/
def sample_json_object_get_hex (object : Option json_t) (key : String) : Nat :=
  match json_object_get object (some key) with
  | some (.integer n) => n.toNat
  | _ => 0

/-- A 2×2 `FORMAT_GRAY8` texture at the left edge of a 3×2 image, with a
sprite that starts in its right column and is two pixels wide. -/
def wide_sprite_entry : anm_entry_t :=
  { x := 0, y := 0,
    thtx := some { format := .FORMAT_GRAY8, w := 2, h := 2, data := [1, 2, 3, 4] },
    sprites := some [{ x := 1, y := 0, w := 2, h := 1 }],
    sprite_num := 1 }

/-- A 3×2 replacement image, one column wider than the texture of
`wide_sprite_entry`. -/
def wide_sprite_image : png_image_ex :=
  { width := 3, height := 2, buf := some [10, 20, 30, 40, 50, 60] }

/-- A 2×1 `FORMAT_GRAY8` texture at the top of a 2×2 image, with a sprite that
is two rows high. -/
def tall_sprite_entry : anm_entry_t :=
  { x := 0, y := 0,
    thtx := some { format := .FORMAT_GRAY8, w := 2, h := 1, data := [1, 2] },
    sprites := some [{ x := 0, y := 0, w := 1, h := 2 }],
    sprite_num := 1 }

/-- A 2×2 replacement image, one row higher than the texture of
`tall_sprite_entry`. -/
def tall_sprite_image : png_image_ex :=
  { width := 2, height := 2, buf := some [10, 20, 30, 40] }

/-- A 3×1 `FORMAT_BGRA8888` texture, fully transparent, with two sprites: the
left pixel and the right pixel.  The middle pixel belongs to no sprite. -/
def two_sprite_entry : anm_entry_t :=
  { x := 0, y := 0,
    thtx := some { format := .FORMAT_BGRA8888, w := 3, h := 1,
                   data := [1, 2, 3, 0, 4, 5, 6, 0, 7, 8, 9, 0] },
    sprites := some [{ x := 0, y := 0, w := 1, h := 1 }, { x := 2, y := 0, w := 1, h := 1 }],
    sprite_num := 2 }

/-- A 3×1 replacement image with three opaque pixels. -/
def two_sprite_image : png_image_ex :=
  { width := 3, height := 1,
    buf := some [10, 20, 30, 255, 40, 50, 60, 255, 70, 80, 90, 255] }

/-! # Properties -/

/-! ### Lemmas on little-endian fields -/

theorem le_encode_length (w v : Nat) : (le_encode w v).length = w := by
  induction w generalizing v with
  | zero => rfl
  | succ w ih => simp [le_encode, ih]

theorem le_decode_encode (w v : Nat) : le_decode (le_encode w v) = v % 256 ^ w := by
  induction w generalizing v with
  | zero => simp [le_encode, le_decode, Nat.mod_one]
  | succ w ih =>
    simp only [le_encode, le_decode, ih]
    rw [pow_succ, Nat.mul_comm (256 ^ w) 256, Nat.mod_mul]

theorem rel_value_lt (target site off w : Nat) : rel_value target site off w < 256 ^ w := by
  unfold rel_value
  have hpos : (0 : Int) < (256 : Int) ^ w := by positivity
  have h1 := Int.emod_lt_of_pos ((target : Int) - ((site : Int) + off + w)) hpos
  have h0 := Int.emod_nonneg ((target : Int) - ((site : Int) + off + w)) (ne_of_gt hpos)
  have : ((Int.toNat (((target : Int) - ((site : Int) + off + w)) % (256 : Int) ^ w) : Nat) : Int)
      < ((256 ^ w : Nat) : Int) := by
    rw [Int.toNat_of_nonneg h0]; push_cast; exact h1
  exact_mod_cast this

theorem rel_value_cast (target site off w : Nat) :
    ((rel_value target site off w : Nat) : Int)
      = ((target : Int) - ((site : Int) + off + w)) % (256 : Int) ^ w := by
  unfold rel_value
  have hpos : (0 : Int) < (256 : Int) ^ w := by positivity
  exact Int.toNat_of_nonneg (Int.emod_nonneg _ (ne_of_gt hpos))

/-! ### Lemmas on the renderer -/

theorem calc_size_append (a b : List HackToken) (n : Nat)
    (h : binhack_calc_size (a ++ b) = .ok n) :
    ∃ na nb, binhack_calc_size a = .ok na ∧ binhack_calc_size b = .ok nb ∧ n = na + nb := by
  induction a generalizing n with
  | nil => exact ⟨0, n, rfl, by simpa using h, by simp⟩
  | cons t a ih =>
    simp only [List.cons_append, binhack_calc_size, List.append_eq] at h ⊢
    cases ht : token_size t with
    | error e => simp [ht] at h
    | ok k =>
      simp only [ht] at h ⊢
      cases hab : binhack_calc_size (a ++ b) with
      | error e => simp [hab] at h
      | ok m =>
        simp only [hab, Except.ok.injEq] at h
        obtain ⟨na, nb, h1, h2, h3⟩ := ih m hab
        refine ⟨k + na, nb, ?_, h2, ?_⟩
        · simp [h1]
        · omega

theorem render_tokens_length (caves : List (String × Nat)) (site : Nat) (d : List HackToken) :
    ∀ (off n : Nat) (out : List Nat), binhack_calc_size d = .ok n →
      render_tokens caves site off d = .ok out → out.length = n := by
  induction d with
  | nil =>
    intro off n out hs hr
    simp only [binhack_calc_size, Except.ok.injEq] at hs
    simp only [render_tokens, Except.ok.injEq] at hr
    subst hs; subst hr; rfl
  | cons t rest ih =>
    intro off n out hs hr
    simp only [binhack_calc_size] at hs
    cases ht : token_size t with
    | error e => simp [ht] at hs
    | ok k =>
      simp only [ht] at hs
      cases hrest : binhack_calc_size rest with
      | error e => simp [hrest] at hs
      | ok m =>
        simp only [hrest, Except.ok.injEq] at hs
        cases t with
        | bytes bs =>
          simp only [render_tokens] at hr
          cases hrr : render_tokens caves site (off + bs.length) rest with
          | error e => simp [hrr] at hr
          | ok o =>
            simp only [hrr, Except.ok.injEq] at hr
            have := ih _ _ _ hrest hrr
            simp only [token_size] at ht
            split at ht
            · simp only [Except.ok.injEq] at ht
              subst hr; simp [List.length_append]; omega
            · simp at ht
        | imm w v =>
          simp only [render_tokens] at hr
          cases hrr : render_tokens caves site (off + w) rest with
          | error e => simp [hrr] at hr
          | ok o =>
            simp only [hrr, Except.ok.injEq] at hr
            have := ih _ _ _ hrest hrr
            simp only [token_size] at ht
            split at ht
            · simp only [Except.ok.injEq] at ht
              subst hr; simp [List.length_append, le_encode_length]; omega
            · simp at ht
        | rel w r =>
          simp only [render_tokens] at hr
          cases hres : resolve caves r with
          | none => simp [hres] at hr
          | some a =>
            simp only [hres] at hr
            cases hrr : render_tokens caves site (off + w) rest with
            | error e => simp [hrr] at hr
            | ok o =>
              simp only [hrr, Except.ok.injEq] at hr
              have := ih _ _ _ hrest hrr
              simp only [token_size, Except.ok.injEq] at ht
              subst hr; simp [List.length_append, le_encode_length]; omega

theorem render_tokens_total (caves : List (String × Nat)) (site : Nat) (d : List HackToken) :
    ∀ (off : Nat), refs_resolved caves d = true →
      ∃ out, render_tokens caves site off d = .ok out := by
  induction d with
  | nil => intro off _; exact ⟨[], rfl⟩
  | cons t rest ih =>
    intro off hres
    cases t with
    | bytes bs =>
      simp only [refs_resolved] at hres
      obtain ⟨o, ho⟩ := ih (off + bs.length) hres
      exact ⟨bs ++ o, by simp [render_tokens, ho]⟩
    | imm w v =>
      simp only [refs_resolved] at hres
      obtain ⟨o, ho⟩ := ih (off + w) hres
      exact ⟨le_encode w v ++ o, by simp [render_tokens, ho]⟩
    | rel w r =>
      simp only [refs_resolved, Bool.and_eq_true] at hres
      obtain ⟨o, ho⟩ := ih (off + w) hres.2
      obtain ⟨a, ha⟩ := Option.isSome_iff_exists.mp hres.1
      exact ⟨le_encode w (rel_value a site off w) ++ o, by simp [render_tokens, ha, ho]⟩

theorem render_tokens_append (caves : List (String × Nat)) (site : Nat) (a b : List HackToken) :
    ∀ (off : Nat) (out : List Nat), render_tokens caves site off (a ++ b) = .ok out →
      ∃ o1 o2, render_tokens caves site off a = .ok o1 ∧
        render_tokens caves site (off + o1.length) b = .ok o2 ∧ out = o1 ++ o2 := by
  induction a with
  | nil => intro off out h; exact ⟨[], out, rfl, by simpa using h, rfl⟩
  | cons t rest ih =>
    intro off out h
    cases t with
    | bytes bs =>
      simp only [List.cons_append, render_tokens, List.append_eq] at h ⊢
      cases hrr : render_tokens caves site (off + bs.length) (rest ++ b) with
      | error e => simp [hrr] at h
      | ok o =>
        simp only [hrr, Except.ok.injEq] at h
        obtain ⟨o1, o2, h1, h2, h3⟩ := ih _ _ hrr
        refine ⟨bs ++ o1, o2, by simp [h1], ?_, by simp [← h, h3]⟩
        simpa [List.length_append, Nat.add_assoc] using h2
    | imm w v =>
      simp only [List.cons_append, render_tokens, List.append_eq] at h ⊢
      cases hrr : render_tokens caves site (off + w) (rest ++ b) with
      | error e => simp [hrr] at h
      | ok o =>
        simp only [hrr, Except.ok.injEq] at h
        obtain ⟨o1, o2, h1, h2, h3⟩ := ih _ _ hrr
        refine ⟨le_encode w v ++ o1, o2, by simp [h1], ?_, by simp [← h, h3]⟩
        simpa [List.length_append, le_encode_length, Nat.add_assoc] using h2
    | rel w r =>
      simp only [List.cons_append, render_tokens, List.append_eq] at h ⊢
      cases hres : resolve caves r with
      | none => simp [hres] at h
      | some x =>
        simp only [hres] at h ⊢
        cases hrr : render_tokens caves site (off + w) (rest ++ b) with
        | error e => simp [hrr] at h
        | ok o =>
          simp only [hrr, Except.ok.injEq] at h
          obtain ⟨o1, o2, h1, h2, h3⟩ := ih _ _ hrr
          refine ⟨le_encode w (rel_value x site off w) ++ o1, o2, by simp [h1], ?_,
            by simp [← h, h3]⟩
          simpa [List.length_append, le_encode_length, Nat.add_assoc] using h2

theorem le_decode_signed_exact (w : Nat) (D : Int) (u : Nat)
    (hu : (u : Int) = D % (256 : Int) ^ w)
    (hlo : -((256 : Int) ^ w) ≤ 2 * D) (hhi : 2 * D < (256 : Int) ^ w) :
    le_decode_signed (le_encode w u) = D := by
  have hpos : (0 : Int) < (256 : Int) ^ w := by positivity
  have hult : (u : Int) < (256 : Int) ^ w := by rw [hu]; exact Int.emod_lt_of_pos _ hpos
  have hultN : u < 256 ^ w := by exact_mod_cast hult
  unfold le_decode_signed
  rw [le_decode_encode, le_encode_length, Nat.mod_eq_of_lt hultN]
  by_cases hD : 0 ≤ D
  · have hDm : D % (256 : Int) ^ w = D := Int.emod_eq_of_lt hD (by linarith)
    rw [hDm] at hu
    have h2 : 2 * u < 256 ^ w := by
      have : (2 : Int) * (u : Int) < (256 : Int) ^ w := by rw [hu]; exact hhi
      exact_mod_cast this
    rw [if_pos h2]; exact hu
  · have hD' : D < 0 := not_le.mp hD
    have hDm : D % (256 : Int) ^ w = D + (256 : Int) ^ w := by
      rw [← Int.add_emod_self]
      exact Int.emod_eq_of_lt (by linarith) (by linarith)
    rw [hDm] at hu
    have h2 : ¬ 2 * u < 256 ^ w := by
      intro h
      have : (2 : Int) * (u : Int) < (256 : Int) ^ w := by exact_mod_cast h
      rw [hu] at this
      linarith
    rw [if_neg h2, hu]; ring

theorem le_decode_signed_congr (w : Nat) (D : Int) (u : Nat)
    (hu : (u : Int) = D % (256 : Int) ^ w) :
    (256 : Int) ^ w ∣ le_decode_signed (le_encode w u) - D := by
  have hpos : (0 : Int) < (256 : Int) ^ w := by positivity
  have hult : (u : Int) < (256 : Int) ^ w := by rw [hu]; exact Int.emod_lt_of_pos _ hpos
  have hultN : u < 256 ^ w := by exact_mod_cast hult
  have hdiv : (256 : Int) ^ w ∣ (u : Int) - D := by
    rw [hu]
    exact ⟨-(D / (256 : Int) ^ w), by
      have := Int.emod_add_ediv D ((256 : Int) ^ w)
      linarith⟩
  unfold le_decode_signed
  rw [le_decode_encode, le_encode_length, Nat.mod_eq_of_lt hultN]
  split
  · exact hdiv
  · have : (u : Int) - (256 : Int) ^ w - D = ((u : Int) - D) - (256 : Int) ^ w := by ring
    rw [this]
    exact Int.dvd_sub hdiv (dvd_refl _)

/-! ### C1, C2: the renderer -/

/-- C1. Every relative-reference field of a binary hack rendered at site `S`
holds `target − (S + field_offset + field_width)` in the two's complement
arithmetic of the field: for a description `pre ++ rel w t :: post` whose
reference resolves to `X`, the field starts at the rendered size `off` of
`pre`, is `w` bytes long, its unsigned reading is that difference modulo
`256 ^ w`, its signed reading is congruent to the difference and equal to it
whenever the difference is representable in `w` bytes (as it is when the
target and the end of the field both lie in the lower half of the address
space), adding `S + off + w` back reproduces the target, modulo `256 ^ w` for
the unsigned reading, and the field is the end of the output when nothing
follows it (a one-byte opcode followed by a 4-byte field gives
`X − (S + 1 + 4)`). -/
theorem binhack_render_relative_field (caves : List (String × Nat)) (buf_size S : Nat)
    (pre post : List HackToken) (w : Nat) (t : RefToken) (X : Nat) (out : List Nat)
    (hX : resolve caves t = some X)
    (hr : binhack_render caves buf_size S (pre ++ HackToken.rel w t :: post) = .ok out) :
    ∃ off, binhack_calc_size pre = .ok off ∧
      ((out.drop off).take w).length = w ∧
      (le_decode ((out.drop off).take w) : Int)
        = ((X : Int) - ((S : Int) + off + w)) % (256 : Int) ^ w ∧
      (256 : Int) ^ w ∣
        le_decode_signed ((out.drop off).take w) - ((X : Int) - ((S : Int) + off + w)) ∧
      (-((256 : Int) ^ w) ≤ 2 * ((X : Int) - ((S : Int) + off + w)) →
        2 * ((X : Int) - ((S : Int) + off + w)) < (256 : Int) ^ w →
        le_decode_signed ((out.drop off).take w) = (X : Int) - ((S : Int) + off + w) ∧
        (S : Int) + off + w + le_decode_signed ((out.drop off).take w) = X) ∧
      (2 * X < 256 ^ w → 2 * (S + off + w) ≤ 256 ^ w →
        le_decode_signed ((out.drop off).take w) = (X : Int) - ((S : Int) + off + w)) ∧
      (S + off + w + le_decode ((out.drop off).take w)) % 256 ^ w = X % 256 ^ w ∧
      (post = [] → out.drop off = (out.drop off).take w ∧ out.length = off + w) := by
  unfold binhack_render at hr
  cases hs : binhack_calc_size (pre ++ HackToken.rel w t :: post) with
  | error e => simp [hs] at hr
  | ok n =>
    simp only [hs] at hr
    split at hr
    · simp at hr
    · obtain ⟨off, nb, hpre, hpost, hn⟩ := calc_size_append _ _ _ hs
      obtain ⟨o1, o2, h1, h2, h3⟩ := render_tokens_append caves S _ _ _ _ hr
      have hlen1 : o1.length = off := render_tokens_length caves S pre 0 off o1 hpre h1
      simp only [render_tokens, hX, Nat.zero_add, hlen1] at h2
      cases hrr : render_tokens caves S (off + w) post with
      | error e => simp [hrr] at h2
      | ok o3 =>
        simp only [hrr, Except.ok.injEq] at h2
        have hfield : (out.drop off).take w = le_encode w (rel_value X S off w) := by
          rw [h3, ← h2, ← hlen1, List.drop_left]
          rw [List.take_left' (le_encode_length _ _)]
        have hcast := rel_value_cast X S off w
        refine ⟨off, hpre, ?_, ?_, ?_, ?_, ?_, ?_, ?_⟩
        · rw [hfield, le_encode_length]
        · rw [hfield, le_decode_encode, Nat.mod_eq_of_lt (rel_value_lt _ _ _ _)]
          exact hcast
        · rw [hfield]; exact le_decode_signed_congr w _ _ hcast
        · intro hlo hhi
          rw [hfield, le_decode_signed_exact w _ _ hcast hlo hhi]
          exact ⟨rfl, by ring⟩
        · intro hx hs
          have hx2 : (2 : Int) * (X : Int) < (256 : Int) ^ w := by exact_mod_cast hx
          have hs2 : (2 : Int) * ((S : Int) + off + w) ≤ (256 : Int) ^ w := by exact_mod_cast hs
          have hX0 : (0 : Int) ≤ (X : Int) := Int.ofNat_nonneg _
          have hS0 : (0 : Int) ≤ (S : Int) + off + w := by positivity
          rw [hfield]
          exact le_decode_signed_exact w _ _ hcast (by linarith) (by linarith)
        · rw [hfield, le_decode_encode, Nat.mod_eq_of_lt (rel_value_lt _ _ _ _)]
          have hpos : (0 : Int) < (256 : Int) ^ w := by positivity
          have key : (((S + off + w + rel_value X S off w : Nat) : Int)) % ((256 ^ w : Nat) : Int)
              = ((X : Nat) : Int) % ((256 ^ w : Nat) : Int) := by
            push_cast
            rw [hcast, Int.add_emod, Int.emod_emod_of_dvd _ (dvd_refl _), ← Int.add_emod]
            congr 1; ring
          exact_mod_cast key
        · intro hp
          subst hp
          simp only [render_tokens, Except.ok.injEq] at hrr
          subst hrr
          have hout : out = o1 ++ le_encode w (rel_value X S off w) := by
            rw [h3, ← h2]; simp
          constructor
          · rw [hfield, hout, ← hlen1, List.drop_left]
          · rw [hout, List.length_append, le_encode_length, hlen1]

/-- C1, instance: a relative call (opcode `0xE8` and a 4-byte field) to the
cave `"cave"` allocated at `0x10000000`, rendered at site `0x00401000`. -/
theorem binhack_render_relative_field_witness :
    resolve [("cave", 0x10000000)] (RefToken.cave "cave") = some 0x10000000 ∧
    binhack_render [("cave", 0x10000000)] 5 0x00401000
        ([HackToken.bytes [0xE8]] ++ HackToken.rel 4 (RefToken.cave "cave") :: [])
      = .ok [0xE8, 0xFB, 0xEF, 0xBF, 0x0F] ∧
    ∃ off, binhack_calc_size [HackToken.bytes [0xE8]] = .ok off ∧
      (([0xE8, 0xFB, 0xEF, 0xBF, 0x0F].drop off).take 4).length = 4 ∧
      (le_decode (([0xE8, 0xFB, 0xEF, 0xBF, 0x0F].drop off).take 4) : Int)
        = (((0x10000000 : Nat) : Int) - (((0x00401000 : Nat) : Int) + off + (4 : Nat)))
            % (256 : Int) ^ 4 ∧
      (256 : Int) ^ 4 ∣
        le_decode_signed (([0xE8, 0xFB, 0xEF, 0xBF, 0x0F].drop off).take 4)
          - (((0x10000000 : Nat) : Int) - (((0x00401000 : Nat) : Int) + off + (4 : Nat))) ∧
      (-((256 : Int) ^ 4)
          ≤ 2 * (((0x10000000 : Nat) : Int) - (((0x00401000 : Nat) : Int) + off + (4 : Nat))) →
        2 * (((0x10000000 : Nat) : Int) - (((0x00401000 : Nat) : Int) + off + (4 : Nat)))
          < (256 : Int) ^ 4 →
        le_decode_signed (([0xE8, 0xFB, 0xEF, 0xBF, 0x0F].drop off).take 4)
          = ((0x10000000 : Nat) : Int) - (((0x00401000 : Nat) : Int) + off + (4 : Nat)) ∧
        ((0x00401000 : Nat) : Int) + off + (4 : Nat)
          + le_decode_signed (([0xE8, 0xFB, 0xEF, 0xBF, 0x0F].drop off).take 4)
          = ((0x10000000 : Nat) : Int)) ∧
      (2 * 0x10000000 < 256 ^ 4 → 2 * (0x00401000 + off + 4) ≤ 256 ^ 4 →
        le_decode_signed (([0xE8, 0xFB, 0xEF, 0xBF, 0x0F].drop off).take 4)
          = ((0x10000000 : Nat) : Int) - (((0x00401000 : Nat) : Int) + off + (4 : Nat))) ∧
      (0x00401000 + off + 4 + le_decode (([0xE8, 0xFB, 0xEF, 0xBF, 0x0F].drop off).take 4))
          % 256 ^ 4 = 0x10000000 % 256 ^ 4 ∧
      (([] : List HackToken) = [] →
        [0xE8, 0xFB, 0xEF, 0xBF, 0x0F].drop off
          = ([0xE8, 0xFB, 0xEF, 0xBF, 0x0F].drop off).take 4 ∧
        [0xE8, 0xFB, 0xEF, 0xBF, 0x0F].length = off + 4) :=
  ⟨by decide, by rfl,
    binhack_render_relative_field [("cave", 0x10000000)] 5 0x00401000
      [HackToken.bytes [0xE8]] [] 4 (RefToken.cave "cave") 0x10000000
      [0xE8, 0xFB, 0xEF, 0xBF, 0x0F] (by decide) (by rfl)⟩

/-- C2. For a valid description `d` (the size phase gives `n`, every reference
resolves, the buffer holds `n` bytes) and every target address `a`,
`binhack_render` succeeds and writes exactly `binhack_calc_size d = n` bytes;
and the two literal bytes `90 90` have size 2 and render to `{0x90, 0x90}` at
every address, whether written as one literal sequence or as two. -/
theorem binhack_render_writes_calc_size (caves : List (String × Nat)) (buf_size a : Nat)
    (d : List HackToken) (n : Nat)
    (hs : binhack_calc_size d = .ok n) (hres : refs_resolved caves d = true)
    (hbuf : n ≤ buf_size) :
    (∃ out, binhack_render caves buf_size a d = .ok out ∧ out.length = n) ∧
    binhack_calc_size [HackToken.bytes [0x90, 0x90]] = .ok 2 ∧
    binhack_calc_size [HackToken.bytes [0x90], HackToken.bytes [0x90]] = .ok 2 ∧
    (∀ (caves2 : List (String × Nat)) (b a2 : Nat), 2 ≤ b →
      binhack_render caves2 b a2 [HackToken.bytes [0x90, 0x90]] = .ok [0x90, 0x90] ∧
      binhack_render caves2 b a2 [HackToken.bytes [0x90], HackToken.bytes [0x90]]
        = .ok [0x90, 0x90]) := by
  refine ⟨?_, rfl, rfl, ?_⟩
  · obtain ⟨out, hout⟩ := render_tokens_total caves a d 0 hres
    refine ⟨out, ?_, render_tokens_length caves a d 0 n out hs hout⟩
    unfold binhack_render
    simp only [hs]
    rw [if_neg (by omega)]
    exact hout
  · intro caves2 b a2 hb
    have h1 : binhack_calc_size [HackToken.bytes [0x90, 0x90]] = .ok 2 := rfl
    have h2 : binhack_calc_size [HackToken.bytes [0x90], HackToken.bytes [0x90]] = .ok 2 := rfl
    constructor
    · unfold binhack_render
      simp only [h1]
      rw [if_neg (by omega)]
      rfl
    · unfold binhack_render
      simp only [h2]
      rw [if_neg (by omega)]
      rfl

/-- C2, instance: a relative call of 5 bytes rendered into a buffer of 8. -/
theorem binhack_render_writes_calc_size_witness :
    (∃ out, binhack_render [("cave", 0x10000000)] 8 0x00401000
        [HackToken.bytes [0xE8], HackToken.rel 4 (RefToken.cave "cave")] = .ok out ∧
      out.length = 5) ∧
    binhack_calc_size [HackToken.bytes [0x90, 0x90]] = .ok 2 ∧
    binhack_calc_size [HackToken.bytes [0x90], HackToken.bytes [0x90]] = .ok 2 ∧
    (∀ (caves2 : List (String × Nat)) (b a2 : Nat), 2 ≤ b →
      binhack_render caves2 b a2 [HackToken.bytes [0x90, 0x90]] = .ok [0x90, 0x90] ∧
      binhack_render caves2 b a2 [HackToken.bytes [0x90], HackToken.bytes [0x90]]
        = .ok [0x90, 0x90]) :=
  binhack_render_writes_calc_size [("cave", 0x10000000)] 8 0x00401000
    [HackToken.bytes [0xE8], HackToken.rel 4 (RefToken.cave "cave")] 5
    (by rfl) (by rfl) (by decide)

/-! ### C3: breakpoint_process -/

theorem handlers_after_cons {σ : Type} (d : BreakpointDescriptor σ)
    (ds : List (BreakpointDescriptor σ)) (s : σ) (regs : x86_reg_t) :
    handlers_after (d :: ds) s regs
      = handlers_after ds (d.func s regs d.json_obj).2.1 (d.func s regs d.json_obj).2.2 := by
  simp [handlers_after]

theorem run_handlers_keys {σ : Type} (ds : List (BreakpointDescriptor σ)) :
    ∀ (s : σ) (regs : x86_reg_t),
      (run_handlers ds s regs).1.map Prod.fst = ds.map (fun d => d.key) := by
  induction ds with
  | nil => intro s regs; rfl
  | cons d ds ih => intro s regs; simp [run_handlers, ih]

theorem run_handlers_after {σ : Type} (ds : List (BreakpointDescriptor σ)) :
    ∀ (s : σ) (regs : x86_reg_t),
      (run_handlers ds s regs).2 = handlers_after ds s regs := by
  induction ds with
  | nil => intro s regs; rfl
  | cons d ds ih =>
    intro s regs
    rw [handlers_after_cons]
    simp only [run_handlers]
    exact ih _ _

theorem run_handlers_call {σ : Type} (ds : List (BreakpointDescriptor σ)) :
    ∀ (s : σ) (regs : x86_reg_t) (i : Nat) (d : BreakpointDescriptor σ), ds[i]? = some d →
      (run_handlers ds s regs).1[i]?
        = some (d.key, (d.func (handlers_after (ds.take i) s regs).1
            (handlers_after (ds.take i) s regs).2 d.json_obj).1) := by
  induction ds with
  | nil => intro s regs i d h; simp at h
  | cons d0 ds ih =>
    intro s regs i d h
    cases i with
    | zero =>
      simp only [List.getElem?_cons_zero, Option.some.injEq] at h
      subst h
      simp [run_handlers, handlers_after]
    | succ i =>
      simp only [List.getElem?_cons_succ] at h
      simp only [run_handlers, List.getElem?_cons_succ, List.take_succ_cons, handlers_after_cons]
      exact ih _ _ i d h

/-- C3. When a breakpoint fires at an address with handlers, `breakpoint_process`
invokes every handler of the list in configuration order, whatever earlier
handlers returned: the calls made carry the descriptors' keys in order, there
are as many calls as descriptors, and call `i` is descriptor `i`'s handler
applied to the state and registers left by the handlers before it.  The
combined decision is Skip as soon as one handler returned 0, and Continue
exactly when every handler returned 1. -/
theorem breakpoint_process_runs_all {σ : Type} (installed : List (InstalledBreakpoint σ))
    (bp : InstalledBreakpoint σ) (s : σ) (regs : x86_reg_t)
    (hfind : installed.find? (fun b => b.addr + CALL_LEN == regs.retaddr) = some bp) :
    (breakpoint_process installed s regs).calls.map Prod.fst
        = bp.descriptors.map (fun d => d.key) ∧
    (breakpoint_process installed s regs).calls.length = bp.descriptors.length ∧
    (∀ (i : Nat) (d : BreakpointDescriptor σ), bp.descriptors[i]? = some d →
      (breakpoint_process installed s regs).calls[i]?
        = some (d.key, (d.func (handlers_after (bp.descriptors.take i) s regs).1
            (handlers_after (bp.descriptors.take i) s regs).2 d.json_obj).1)) ∧
    ((∃ c ∈ (breakpoint_process installed s regs).calls, c.2 = 0) →
      (breakpoint_process installed s regs).decision = ResumeDecision.Skip) ∧
    ((breakpoint_process installed s regs).decision = ResumeDecision.Continue ↔
      ∀ c ∈ (breakpoint_process installed s regs).calls, c.2 = 1) ∧
    ((breakpoint_process installed s regs).state, (breakpoint_process installed s regs).regs)
      = handlers_after bp.descriptors s regs := by
  have hcalls : (breakpoint_process installed s regs).calls
      = (run_handlers bp.descriptors s regs).1 := by
    simp [breakpoint_process, hfind]
  have hdec : (breakpoint_process installed s regs).decision
      = if (run_handlers bp.descriptors s regs).1.all (fun c => c.2 == 1)
        then ResumeDecision.Continue else ResumeDecision.Skip := by
    simp [breakpoint_process, hfind]
  have hiff : (breakpoint_process installed s regs).decision = ResumeDecision.Continue ↔
      ∀ c ∈ (breakpoint_process installed s regs).calls, c.2 = 1 := by
    rw [hdec, hcalls]
    constructor
    · intro h c hc
      split at h
      · rename_i hall
        rw [List.all_eq_true] at hall
        simpa using hall c hc
      · cases h
    · intro h
      rw [if_pos]
      rw [List.all_eq_true]
      intro c hc
      simpa using h c hc
  refine ⟨?_, ?_, ?_, ?_, hiff, ?_⟩
  · rw [hcalls]; exact run_handlers_keys _ _ _
  · have := congrArg List.length (run_handlers_keys bp.descriptors s regs)
    rw [hcalls]
    simpa using this
  · intro i d hd
    rw [hcalls]
    exact run_handlers_call _ _ _ i d hd
  · rintro ⟨c, hc, h0⟩
    cases hd : (breakpoint_process installed s regs).decision with
    | Skip => rfl
    | Continue =>
      have := hiff.mp hd c hc
      omega
  · have h := run_handlers_after bp.descriptors s regs
    rw [← h]
    simp [breakpoint_process, hfind]

/-- C3, instance: two handlers at one address, the first returns Skip; the
second still runs, on the registers the first left, and the decision is Skip. -/
theorem breakpoint_process_runs_all_witness :
    [sample_breakpoint].find? (fun b => b.addr + CALL_LEN == sample_regs.retaddr)
      = some sample_breakpoint ∧
    (breakpoint_process [sample_breakpoint] () sample_regs).calls
      = [("first", 0), ("second#2", 1)] ∧
    (breakpoint_process [sample_breakpoint] () sample_regs).regs.ebx = 2 ∧
    ((breakpoint_process [sample_breakpoint] () sample_regs).calls.map Prod.fst
        = sample_breakpoint.descriptors.map (fun d => d.key) ∧
    (breakpoint_process [sample_breakpoint] () sample_regs).calls.length
        = sample_breakpoint.descriptors.length ∧
    (∀ (i : Nat) (d : BreakpointDescriptor Unit), sample_breakpoint.descriptors[i]? = some d →
      (breakpoint_process [sample_breakpoint] () sample_regs).calls[i]?
        = some (d.key,
            (d.func (handlers_after (sample_breakpoint.descriptors.take i) () sample_regs).1
              (handlers_after (sample_breakpoint.descriptors.take i) () sample_regs).2
              d.json_obj).1)) ∧
    ((∃ c ∈ (breakpoint_process [sample_breakpoint] () sample_regs).calls, c.2 = 0) →
      (breakpoint_process [sample_breakpoint] () sample_regs).decision = ResumeDecision.Skip) ∧
    ((breakpoint_process [sample_breakpoint] () sample_regs).decision
        = ResumeDecision.Continue ↔
      ∀ c ∈ (breakpoint_process [sample_breakpoint] () sample_regs).calls, c.2 = 1) ∧
    ((breakpoint_process [sample_breakpoint] () sample_regs).state,
      (breakpoint_process [sample_breakpoint] () sample_regs).regs)
      = handlers_after sample_breakpoint.descriptors () sample_regs) :=
  ⟨rfl, rfl, rfl,
    breakpoint_process_runs_all [sample_breakpoint] sample_breakpoint () sample_regs rfl⟩

/-! ### C4: hackpoints_count -/

theorem foldl_instances (members : List (String × json_t)) :
    ∀ (acc : Nat), members.foldl (fun ret kv => ret + hackpoint_instances kv.2) acc
      = acc + (members.map (fun kv => hackpoint_instances kv.2)).sum := by
  induction members with
  | nil => intro acc; simp
  | cons kv rest ih => intro acc; simp [ih, Nat.add_assoc]

/-- C4. `hackpoints_count` returns the total number of individual instances of
a configuration: the sum over its addresses of the instances held there, where
a list of `k` objects counts `k` and a single object counts 1; the count is
additive over configurations, and one address with a 3-element list together
with one address with a single object gives 4, in either order. -/
theorem hackpoints_count_total (members : List (String × json_t)) :
    hackpoints_count (some (json_t.object members))
      = (members.map (fun kv => hackpoint_instances kv.2)).sum ∧
    (∀ (items : List json_t), hackpoint_instances (json_t.array items) = items.length) ∧
    (∀ (fields : List (String × json_t)), hackpoint_instances (json_t.object fields) = 1) ∧
    (∀ (more : List (String × json_t)),
      hackpoints_count (some (json_t.object (members ++ more)))
        = hackpoints_count (some (json_t.object members))
          + hackpoints_count (some (json_t.object more))) ∧
    (∀ (a1 a2 : String) (x y z : json_t) (fields : List (String × json_t)),
      hackpoints_count (some (json_t.object
          [(a1, json_t.array [x, y, z]), (a2, json_t.object fields)])) = 4 ∧
      hackpoints_count (some (json_t.object
          [(a2, json_t.object fields), (a1, json_t.array [x, y, z])])) = 4) := by
  refine ⟨?_, fun _ => rfl, fun _ => rfl, ?_, fun _ _ _ _ _ _ => ⟨rfl, rfl⟩⟩
  · simp [hackpoints_count, foldl_instances]
  · intro more
    simp [hackpoints_count, foldl_instances]

/-! ### C5: breakpoint_func_get -/

theorem takeWhile_hash (p s : List Char) (hp : '#' ∉ p) (hs : s = [] ∨ s.head? = some '#') :
    (p ++ s).takeWhile (fun c => c != '#') = p := by
  induction p with
  | nil =>
    rcases hs with hs | hs
    · subst hs; rfl
    · cases s with
      | nil => simp at hs
      | cons c s =>
        simp only [List.head?_cons, Option.some.injEq] at hs
        subst hs
        simp [List.takeWhile]
  | cons c p ih =>
    have hc : c ≠ '#' := fun h => hp (by simp [h])
    have hp2 : '#' ∉ p := fun h => hp (by simp [h])
    have hb : (c != '#') = true := by simpa using hc
    simp [List.takeWhile, hb, ih hp2]

theorem lookup_some_mem {F : Type} (name : String) (f : F) (l : List (String × F))
    (h : l.lookup name = some f) : (name, f) ∈ l := by
  induction l with
  | nil => simp at h
  | cons e rest ih =>
    obtain ⟨n, g⟩ := e
    simp only [List.lookup] at h
    split at h
    · rename_i heq
      simp only [Option.some.injEq] at h
      have : name = n := by simpa using heq
      subst this; subst h
      simp
    · exact List.mem_cons_of_mem _ (ih h)

theorem mem_lookup_isSome {F : Type} (name : String) (f : F) (l : List (String × F))
    (h : (name, f) ∈ l) : (l.lookup name).isSome = true := by
  induction l with
  | nil => simp at h
  | cons e rest ih =>
    obtain ⟨n, g⟩ := e
    simp only [List.lookup]
    split
    · rfl
    · rename_i hne
      rcases List.mem_cons.mp h with h | h
      · have : name = n := by
          have := congrArg Prod.fst h
          simpa using this
        subst this
        simp at hne
      · exact ih h

/-- C5. `breakpoint_func_get` depends only on the part of its key before the
first `#`: two keys made of the same `#`-free text `p`, each either ending
there or continuing with a `#`, resolve to the same function pointer or both
fail; the lookup is that of the export named `BP_` followed by `p`, so a
function found is exported under that name, and an export under that name is
found. -/
theorem breakpoint_func_get_key_base {F : Type} (exports : List (String × F))
    (p s1 s2 : List Char) (hp : '#' ∉ p)
    (h1 : s1 = [] ∨ s1.head? = some '#') (h2 : s2 = [] ∨ s2.head? = some '#') :
    breakpoint_func_get exports (String.mk (p ++ s1))
      = breakpoint_func_get exports (String.mk (p ++ s2)) ∧
    breakpoint_func_get exports (String.mk (p ++ s1)) = exports.lookup ("BP_" ++ String.mk p) ∧
    (∀ (f : F), breakpoint_func_get exports (String.mk (p ++ s1)) = some f →
      ("BP_" ++ String.mk p, f) ∈ exports) ∧
    ((∃ (f : F), ("BP_" ++ String.mk p, f) ∈ exports) →
      (breakpoint_func_get exports (String.mk (p ++ s1))).isSome = true) := by
  have e1 : breakpoint_func_get exports (String.mk (p ++ s1))
      = exports.lookup ("BP_" ++ String.mk p) := by
    simp only [breakpoint_func_get, breakpoint_key_base]
    rw [takeWhile_hash p s1 hp h1]
  have e2 : breakpoint_func_get exports (String.mk (p ++ s2))
      = exports.lookup ("BP_" ++ String.mk p) := by
    simp only [breakpoint_func_get, breakpoint_key_base]
    rw [takeWhile_hash p s2 hp h2]
  refine ⟨by rw [e1, e2], e1, ?_, ?_⟩
  · intro f hf
    rw [e1] at hf
    exact lookup_some_mem _ f exports hf
  · rintro ⟨f, hf⟩
    rw [e1]
    exact mem_lookup_isSome _ f exports hf

/-- C5, instance: the keys `gentext#1` and `gentext#menu` both resolve to the
export `BP_gentext`. -/
theorem breakpoint_func_get_key_base_witness :
    breakpoint_func_get [("BP_other", 1), ("BP_gentext", 2)] "gentext#1" = some 2 ∧
    (breakpoint_func_get [("BP_other", 1), ("BP_gentext", 2)]
        (String.mk ("gentext".data ++ "#1".data))
      = breakpoint_func_get [("BP_other", 1), ("BP_gentext", 2)]
        (String.mk ("gentext".data ++ "#menu".data)) ∧
    breakpoint_func_get [("BP_other", 1), ("BP_gentext", 2)]
        (String.mk ("gentext".data ++ "#1".data))
      = [("BP_other", 1), ("BP_gentext", 2)].lookup ("BP_" ++ String.mk "gentext".data) ∧
    (∀ (f : Nat), breakpoint_func_get [("BP_other", 1), ("BP_gentext", 2)]
        (String.mk ("gentext".data ++ "#1".data)) = some f →
      ("BP_" ++ String.mk "gentext".data, f) ∈ [("BP_other", 1), ("BP_gentext", 2)]) ∧
    ((∃ (f : Nat), ("BP_" ++ String.mk "gentext".data, f)
        ∈ [("BP_other", 1), ("BP_gentext", 2)]) →
      (breakpoint_func_get [("BP_other", 1), ("BP_gentext", 2)]
        (String.mk ("gentext".data ++ "#1".data))).isSome = true)) :=
  ⟨by rfl,
    breakpoint_func_get_key_base [("BP_other", 1), ("BP_gentext", 2)]
      "gentext".data "#1".data "#menu".data (by decide) (by decide) (by decide)⟩

/-! ### C6, C7: gentext.c -/

theorem breakpoint_cave_exec_flag_cases (bp_info : Option json_t) :
    (breakpoint_cave_exec_flag bp_info = 0 ∧
      json_is_false (json_object_get bp_info (some "cave_exec")) = true) ∨
    (breakpoint_cave_exec_flag bp_info = 1 ∧
      json_is_false (json_object_get bp_info (some "cave_exec")) = false) := by
  unfold breakpoint_cave_exec_flag
  cases h : json_is_false (json_object_get bp_info (some "cave_exec")) <;> simp

/-- C6. `BP_gentext` returns 0 or 1, and it returns 0 exactly when the
descriptor names a register under `"str"`, a replacement line exists at the
current line index of the updated cache, that line's address has been written
through the register, and `"cave_exec"` is set to false.  Without a `"str"`
register, without a replacement line, or with `"cave_exec"` absent, true or
anything but false, it returns 1. -/
theorem BP_gentext_result (env : GentextEnv) (gc : gentext_cache_t) (regs : x86_reg_t)
    (bp_info : json_t) :
    ((BP_gentext env gc regs bp_info).1 = 0 ∨ (BP_gentext env gc regs bp_info).1 = 1) ∧
    ((BP_gentext env gc regs bp_info).1 = 0 ↔
      ∃ (p : reg_field) (text : String),
        json_object_get_register env (some bp_info) regs "str" = some p ∧
        gentext_line env (gentext_cache_update env gc regs bp_info) = some text ∧
        (BP_gentext env gc regs bp_info).2.2 = regs.set p (env.str_ptr text) ∧
        json_object_get (some bp_info) (some "cave_exec") = some json_t.jfalse) ∧
    (json_object_get_register env (some bp_info) regs "str" = none →
      (BP_gentext env gc regs bp_info).1 = 1 ∧ (BP_gentext env gc regs bp_info).2.2 = regs) ∧
    (gentext_line env (gentext_cache_update env gc regs bp_info) = none →
      (BP_gentext env gc regs bp_info).1 = 1 ∧ (BP_gentext env gc regs bp_info).2.2 = regs) ∧
    (json_object_get (some bp_info) (some "cave_exec") ≠ some json_t.jfalse →
      (BP_gentext env gc regs bp_info).1 = 1) := by
  have hfalse : ∀ (v : Option json_t), json_is_false v = true ↔ v = some json_t.jfalse := by
    intro v
    cases v with
    | none => simp [json_is_false]
    | some j => cases j <;> simp [json_is_false]
  cases hstr : json_object_get_register env (some bp_info) regs "str" with
  | none =>
    have hres : BP_gentext env gc regs bp_info
        = (1, gentext_cache_update env gc regs bp_info, regs) := by
      simp [BP_gentext, hstr]
    simp [hres]
  | some p =>
    cases hline : gentext_line env (gentext_cache_update env gc regs bp_info) with
    | none =>
      have hres : BP_gentext env gc regs bp_info
          = (1, { gentext_cache_update env gc regs bp_info with
                  line := ((gentext_cache_update env gc regs bp_info).line + 1) % WORD },
             regs) := by
        simp [BP_gentext, hstr, hline]
      simp [hres]
    | some text =>
      have hres : BP_gentext env gc regs bp_info
          = (breakpoint_cave_exec_flag (some bp_info),
             { gentext_cache_update env gc regs bp_info with
                  line := ((gentext_cache_update env gc regs bp_info).line + 1) % WORD },
             regs.set p (env.str_ptr text)) := by
        simp [BP_gentext, hstr, hline]
      rw [hres]
      rcases breakpoint_cave_exec_flag_cases (some bp_info) with ⟨h0, hf⟩ | ⟨h1, hf⟩
      · have hce := (hfalse _).mp hf
        simp [h0, hce]
      · have hce : json_object_get (some bp_info) (some "cave_exec") ≠ some json_t.jfalse := by
          intro h
          have := (hfalse _).mpr h
          rw [hf] at this
          cases this
        simp [h1, hce]

/-- C6, instance: a `gentext` breakpoint with `"str": "eax"`, a line for its
id and `"cave_exec": false` returns 0 and leaves the line's address in `eax`. -/
theorem BP_gentext_result_witness :
    (BP_gentext sample_gentext_env sample_gentext_cache sample_regs sample_gentext_bp).1 = 0 ∧
    (BP_gentext sample_gentext_env sample_gentext_cache sample_regs sample_gentext_bp).2.2.eax
      = 0x50000a ∧
    ∃ (p : reg_field) (text : String),
      json_object_get_register sample_gentext_env (some sample_gentext_bp) sample_regs "str"
        = some p ∧
      gentext_line sample_gentext_env
        (gentext_cache_update sample_gentext_env sample_gentext_cache sample_regs
          sample_gentext_bp) = some text ∧
      (BP_gentext sample_gentext_env sample_gentext_cache sample_regs sample_gentext_bp).2.2
        = sample_regs.set p (sample_gentext_env.str_ptr text) ∧
      json_object_get (some sample_gentext_bp) (some "cave_exec") = some json_t.jfalse :=
  ⟨by rfl, by rfl,
    (BP_gentext_result sample_gentext_env sample_gentext_cache sample_regs
      sample_gentext_bp).2.1.mp (by rfl)⟩

/-- C7. `json_register_value` resolves a token against the register snapshot:
a token that names a register yields the current value of that register in
the snapshot, whatever its numeric reading is; a token that names no register
yields its numeric (hex) value, the same for every snapshot. -/
theorem json_register_value_resolves (env : GentextEnv) (val : Option json_t)
    (regs : x86_reg_t) :
    (∀ (p : reg_field), reg env regs (json_string_value val) = some p →
      json_register_value env val regs = regs.get p ∧
      ∀ (regs2 : x86_reg_t), json_register_value env val regs2 = regs2.get p) ∧
    (reg env regs (json_string_value val) = none →
      json_register_value env val regs = env.json_hex_value val ∧
      ∀ (regs2 : x86_reg_t), json_register_value env val regs2 = env.json_hex_value val) := by
  constructor
  · intro p hp
    have h2 : ∀ (regs2 : x86_reg_t), reg env regs2 (json_string_value val) = some p := by
      intro regs2
      simpa [reg] using hp
    exact ⟨by simp [json_register_value, hp], fun regs2 => by simp [json_register_value, h2 regs2]⟩
  · intro hp
    have h2 : ∀ (regs2 : x86_reg_t), reg env regs2 (json_string_value val) = none := by
      intro regs2
      simpa [reg] using hp
    exact ⟨by simp [json_register_value, hp], fun regs2 => by simp [json_register_value, h2 regs2]⟩

/-- C7, instance: the token `"ecx"` reads the register even though its numeric
reading is 0, and the token `16` reads as 16 whatever the registers hold. -/
theorem json_register_value_resolves_witness :
    (json_register_value sample_gentext_env (some (json_t.string "ecx"))
        { sample_regs with ecx := 77 } = 77 ∧
      ∀ (regs2 : x86_reg_t),
        json_register_value sample_gentext_env (some (json_t.string "ecx")) regs2
          = regs2.get reg_field.ecx) ∧
    (json_register_value sample_gentext_env (some (json_t.integer 16)) sample_regs
        = sample_gentext_env.json_hex_value (some (json_t.integer 16)) ∧
      ∀ (regs2 : x86_reg_t),
        json_register_value sample_gentext_env (some (json_t.integer 16)) regs2
          = sample_gentext_env.json_hex_value (some (json_t.integer 16))) :=
  ⟨(json_register_value_resolves sample_gentext_env (some (json_t.string "ecx"))
      { sample_regs with ecx := 77 }).1 reg_field.ecx (by rfl),
   (json_register_value_resolves sample_gentext_env (some (json_t.integer 16))
      sample_regs).2 (by rfl)⟩

/-! ### C8: thcrap_init -/

/-- C8, as stated, fails: in a run in which `binhacks_apply` reports a failure
(1), and in one in which `breakpoints_apply` does (−1), `thcrap_init` returns
what it returns when both report success (0), and leaves the same
configuration and process state behind. -/
theorem thcrap_init_same_result_on_apply_failure :
    ((sample_init_env 1 0).binhacks_apply none []).1 = 1 ∧
    ((sample_init_env 0 (-1)).breakpoints_apply none []).1 = -1 ∧
    ((sample_init_env 0 0).binhacks_apply none []).1 = 0 ∧
    ((sample_init_env 0 0).breakpoints_apply none []).1 = 0 ∧
    (thcrap_init (sample_init_env 1 0) "run.js" { run_cfg := none, world := [] }).1
      = (thcrap_init (sample_init_env 0 0) "run.js" { run_cfg := none, world := [] }).1 ∧
    (thcrap_init (sample_init_env 0 (-1)) "run.js" { run_cfg := none, world := [] }).1
      = (thcrap_init (sample_init_env 0 0) "run.js" { run_cfg := none, world := [] }).1 ∧
    (thcrap_init (sample_init_env 1 0) "run.js" { run_cfg := none, world := [] }).2.world
      = (thcrap_init (sample_init_env 0 0) "run.js" { run_cfg := none, world := [] }).2.world ∧
    (thcrap_init (sample_init_env 0 0) "run.js" { run_cfg := none, world := [] }).2.world
      = ["SetCurrentDirectory C:/thcrap/", "log_init", "plugin_init", "plugins_load",
         "binhacks_apply", "breakpoints_apply", "iat_detour_apply",
         "SetCurrentDirectory C:/game"] :=
  ⟨rfl, rfl, rfl, rfl, rfl, rfl, rfl, by rfl⟩

theorem init_patches_with_apply_results {W : Type} (env : InitEnv W) (b p : Int)
    (run_cfg_fn : String) (patches : List json_t) :
    ∀ (w : W), init_patches (with_apply_results env b p) run_cfg_fn patches w
      = init_patches env run_cfg_fn patches w := by
  induction patches with
  | nil => intro w; rfl
  | cons patch_info rest ih =>
    intro w
    simp only [init_patches]
    rw [ih]
    rfl

theorem thcrap_init_setup_with_apply_results {W : Type} (env : InitEnv W) (b p : Int)
    (run_cfg_fn : String) (st : InitState W) :
    thcrap_init_setup (with_apply_results env b p) run_cfg_fn st
      = thcrap_init_setup env run_cfg_fn st := by
  simp only [thcrap_init_setup, init_patches_with_apply_results]
  rfl

/-- C8, amended. `thcrap_init` calls `binhacks_apply` on the `"binhacks"` of
the run configuration, in the process state its set-up left, and then
`breakpoints_apply` on the `"breakpoints"`, in the process state
`binhacks_apply` left; the process state it leaves is that of
`breakpoints_apply` after `thcrap_detour` and the return to the game
directory, and the run configuration is the one the apply operations were
given.  What the two operations report is discarded: the result is 0 in every
run, equal for any two runs, and replacing the values the operations report by
any others changes neither the result nor the configuration and process state
left. -/
theorem thcrap_init_discards_apply_results {W : Type} (env : InitEnv W) (run_cfg_fn : String)
    (st : InitState W) (b p : Int) :
    (thcrap_init env run_cfg_fn st).1 = 0 ∧
    thcrap_init (with_apply_results env b p) run_cfg_fn st = thcrap_init env run_cfg_fn st ∧
    (thcrap_init env run_cfg_fn st).2.world
      = env.SetCurrentDirectory (env.GetCurrentDirectory st.world)
          (thcrap_detour env
            (env.breakpoints_apply
              (json_object_get (thcrap_init_setup env run_cfg_fn st).run_cfg
                (some "breakpoints"))
              (env.binhacks_apply
                (json_object_get (thcrap_init_setup env run_cfg_fn st).run_cfg
                  (some "binhacks"))
                (thcrap_init_setup env run_cfg_fn st).world).2).2) ∧
    (thcrap_init env run_cfg_fn st).2.run_cfg = (thcrap_init_setup env run_cfg_fn st).run_cfg ∧
    (∀ (env2 : InitEnv W) (run_cfg_fn2 : String) (st2 : InitState W),
      (thcrap_init env2 run_cfg_fn2 st2).1 = (thcrap_init env run_cfg_fn st).1) := by
  refine ⟨rfl, ?_, rfl, rfl, fun _ _ _ => rfl⟩
  simp only [thcrap_init, thcrap_init_setup_with_apply_results]
  rfl

/-! ### C9: format_blend -/

theorem getD_set_eq (l : List Nat) (i v : Nat) (h : i < l.length) :
    (l.set i v).getD i 0 = v := by
  simp [List.getD_eq_getElem?_getD, List.getElem?_set, h]

theorem getD_set_ne (l : List Nat) (i j v : Nat) (h : i ≠ j) :
    (l.set i v).getD j 0 = l.getD j 0 := by
  simp [List.getD_eq_getElem?_getD, List.getElem?_set, h]

theorem nibble_hi_lt (x : Nat) : (x &&& 0xf0) >>> 4 < 16 := by
  have h : x &&& 0xf0 ≤ 0xf0 := Nat.and_le_right
  rw [Nat.shiftRight_eq_div_pow]
  omega

theorem nibble_lo_lt (x : Nat) : (x &&& 0x0f) >>> 0 < 16 := by
  have h : x &&& 0x0f ≤ 0x0f := Nat.and_le_right
  simp only [Nat.shiftRight_zero]
  omega

theorem blend_channel_lt (c1 c2 a : Nat) (h1 : c1 < 16) (h2 : c2 < 16) (ha : a < 16) :
    (c1 * (0xf - a) + c2 * a) >>> 4 < 16 := by
  have e1 : c1 * (0xf - a) ≤ 15 * (0xf - a) := Nat.mul_le_mul_right _ (by omega)
  have e2 : c2 * a ≤ 15 * a := Nat.mul_le_mul_right _ (by omega)
  rw [Nat.shiftRight_eq_div_pow]
  omega

theorem pack_nibbles (a c : Nat) (ha : a < 16) (hc : c < 16) :
    ((a <<< 4) ||| c) % 256 = 16 * a + c ∧ (((16 * a + c) &&& 0xf0) >>> 4) = a := by
  interval_cases a <;> interval_cases c <;> exact ⟨rfl, rfl⟩

theorem blend_bgra8888_pixel_length (dst : List Nat) (d : Nat) (rep : List Nat) (r : Nat) :
    (blend_bgra8888_pixel dst d rep r).length = dst.length := by
  simp [blend_bgra8888_pixel]

theorem blend_bgra8888_pixel_other (dst : List Nat) (d : Nat) (rep : List Nat) (r j : Nat)
    (h : j < d ∨ d + 4 ≤ j) : (blend_bgra8888_pixel dst d rep r).getD j 0 = dst.getD j 0 := by
  unfold blend_bgra8888_pixel
  simp only []
  rw [getD_set_ne _ _ _ _ (by omega), getD_set_ne _ _ _ _ (by omega),
    getD_set_ne _ _ _ _ (by omega), getD_set_ne _ _ _ _ (by omega)]

theorem blend_bgra8888_pixel_alpha (dst : List Nat) (d : Nat) (rep : List Nat) (r : Nat)
    (h : d + 4 ≤ dst.length) :
    (blend_bgra8888_pixel dst d rep r).getD (d + 3) 0
      = min (dst.getD (d + 3) 0 + rep.getD (r + 3) 0) 0xff := by
  unfold blend_bgra8888_pixel
  simp only []
  rw [getD_set_eq _ _ _ (by simp; omega)]
  exact Nat.mod_eq_of_lt (by omega)

theorem blend_bgra8888_length (rep : List Nat) (n : Nat) :
    ∀ (dst : List Nat) (d r : Nat), (blend_bgra8888 n dst d rep r).length = dst.length := by
  induction n with
  | zero => intro dst d r; rfl
  | succ n ih =>
    intro dst d r
    simp only [blend_bgra8888]
    rw [ih, blend_bgra8888_pixel_length]

theorem blend_bgra8888_below (rep : List Nat) (n : Nat) :
    ∀ (dst : List Nat) (d r j : Nat), j < d →
      (blend_bgra8888 n dst d rep r).getD j 0 = dst.getD j 0 := by
  induction n with
  | zero => intro dst d r j _; rfl
  | succ n ih =>
    intro dst d r j hj
    simp only [blend_bgra8888]
    rw [ih _ _ _ _ (by omega), blend_bgra8888_pixel_other _ _ _ _ _ (Or.inl hj)]

theorem blend_bgra8888_alpha (rep : List Nat) (n : Nat) :
    ∀ (dst : List Nat) (d r i : Nat), i < n → d + 4 * n ≤ dst.length →
      (blend_bgra8888 n dst d rep r).getD (d + 4 * i + 3) 0
        = min (dst.getD (d + 4 * i + 3) 0 + rep.getD (r + 4 * i + 3) 0) 0xff := by
  induction n with
  | zero => intro dst d r i hi; omega
  | succ n ih =>
    intro dst d r i hi hlen
    simp only [blend_bgra8888]
    cases i with
    | zero =>
      rw [blend_bgra8888_below _ _ _ _ _ _ (by omega)]
      exact blend_bgra8888_pixel_alpha _ _ _ _ (by omega)
    | succ i =>
      have e1 : d + 4 * (i + 1) + 3 = (d + 4) + 4 * i + 3 := by omega
      have e2 : r + 4 * (i + 1) + 3 = (r + 4) + 4 * i + 3 := by omega
      rw [e1, e2, ih _ _ _ i (by omega) (by rw [blend_bgra8888_pixel_length]; omega),
        blend_bgra8888_pixel_other _ _ _ _ _ (Or.inr (by omega))]

theorem blend_argb4444_pixel_length (dst : List Nat) (d : Nat) (rep : List Nat) (r : Nat) :
    (blend_argb4444_pixel dst d rep r).length = dst.length := by
  simp [blend_argb4444_pixel]

theorem blend_argb4444_pixel_other (dst : List Nat) (d : Nat) (rep : List Nat) (r j : Nat)
    (h : j < d ∨ d + 2 ≤ j) : (blend_argb4444_pixel dst d rep r).getD j 0 = dst.getD j 0 := by
  unfold blend_argb4444_pixel
  simp only []
  rw [getD_set_ne _ _ _ _ (by omega), getD_set_ne _ _ _ _ (by omega)]

/-- The byte holding alpha and red after one `FORMAT_ARGB4444` blend step. -/
theorem blend_argb4444_pixel_byte1 (dst : List Nat) (d : Nat) (rep : List Nat) (r : Nat)
    (h : d + 2 ≤ dst.length) :
    (blend_argb4444_pixel dst d rep r).getD (d + 1) 0
      = 16 * min (((dst.getD (d + 1) 0 &&& 0xf0) >>> 4) + ((rep.getD (r + 1) 0 &&& 0xf0) >>> 4)) 0xf
        + ((((dst.getD (d + 1) 0 &&& 0x0f) >>> 0) * (0xf - ((rep.getD (r + 1) 0 &&& 0xf0) >>> 4))
            + ((rep.getD (r + 1) 0 &&& 0x0f) >>> 0) * ((rep.getD (r + 1) 0 &&& 0xf0) >>> 4))
          >>> 4) := by
  unfold blend_argb4444_pixel
  simp only []
  rw [getD_set_ne _ _ _ _ (by omega), getD_set_eq _ _ _ (by omega)]
  exact (pack_nibbles _ _ (by omega)
    (blend_channel_lt _ _ _ (nibble_lo_lt _) (nibble_lo_lt _) (nibble_hi_lt _))).1

theorem blend_argb4444_length (rep : List Nat) (n : Nat) :
    ∀ (dst : List Nat) (d r : Nat), (blend_argb4444 n dst d rep r).length = dst.length := by
  induction n with
  | zero => intro dst d r; rfl
  | succ n ih =>
    intro dst d r
    simp only [blend_argb4444]
    rw [ih, blend_argb4444_pixel_length]

theorem blend_argb4444_below (rep : List Nat) (n : Nat) :
    ∀ (dst : List Nat) (d r j : Nat), j < d →
      (blend_argb4444 n dst d rep r).getD j 0 = dst.getD j 0 := by
  induction n with
  | zero => intro dst d r j _; rfl
  | succ n ih =>
    intro dst d r j hj
    simp only [blend_argb4444]
    rw [ih _ _ _ _ (by omega), blend_argb4444_pixel_other _ _ _ _ _ (Or.inl hj)]

theorem blend_argb4444_byte1 (rep : List Nat) (n : Nat) :
    ∀ (dst : List Nat) (d r i : Nat), i < n → d + 2 * n ≤ dst.length →
      (blend_argb4444 n dst d rep r).getD (d + 2 * i + 1) 0
        = 16 * min (((dst.getD (d + 2 * i + 1) 0 &&& 0xf0) >>> 4)
              + ((rep.getD (r + 2 * i + 1) 0 &&& 0xf0) >>> 4)) 0xf
          + ((((dst.getD (d + 2 * i + 1) 0 &&& 0x0f) >>> 0)
                * (0xf - ((rep.getD (r + 2 * i + 1) 0 &&& 0xf0) >>> 4))
              + ((rep.getD (r + 2 * i + 1) 0 &&& 0x0f) >>> 0)
                * ((rep.getD (r + 2 * i + 1) 0 &&& 0xf0) >>> 4))
            >>> 4) := by
  induction n with
  | zero => intro dst d r i hi; omega
  | succ n ih =>
    intro dst d r i hi hlen
    simp only [blend_argb4444]
    cases i with
    | zero =>
      rw [blend_argb4444_below _ _ _ _ _ _ (by omega)]
      exact blend_argb4444_pixel_byte1 _ _ _ _ (by omega)
    | succ i =>
      have e1 : d + 2 * (i + 1) + 1 = (d + 2) + 2 * i + 1 := by omega
      have e2 : r + 2 * (i + 1) + 1 = (r + 2) + 2 * i + 1 := by omega
      rw [e1, e2, ih _ _ _ i (by omega) (by rw [blend_argb4444_pixel_length]; omega),
        blend_argb4444_pixel_other _ _ _ _ _ (Or.inr (by omega))]

/-- C9. For a pixel `i` of a `FORMAT_BGRA8888` or `FORMAT_ARGB4444` destination
that lies inside its buffer, `format_blend` sets the destination alpha to
`min(dst_alpha + rep_alpha, format_alpha_max(format))`.  Hence the alpha never
decreases, two fully opaque pixels blend to a fully opaque pixel, and for
`FORMAT_ARGB4444` the byte shared by alpha and red is 16 times the new alpha
plus a blended red value below 16, which stays out of the alpha nibble. -/
theorem format_blend_alpha (format : format_t) (dst rep : List Nat) (d r pixels i : Nat)
    (hfmt : format = format_t.FORMAT_BGRA8888 ∨ format = format_t.FORMAT_ARGB4444)
    (hi : i < pixels) (hlen : d + pixels * format_Bpp format ≤ dst.length)
    (hbyte : ∀ b ∈ dst, b < 256) :
    pixel_alpha format (format_blend dst d rep r pixels format) (d + i * format_Bpp format)
      = min (pixel_alpha format dst (d + i * format_Bpp format)
              + pixel_alpha format rep (r + i * format_Bpp format))
            (format_alpha_max format) ∧
    pixel_alpha format dst (d + i * format_Bpp format)
      ≤ pixel_alpha format (format_blend dst d rep r pixels format)
          (d + i * format_Bpp format) ∧
    (pixel_alpha format dst (d + i * format_Bpp format) = format_alpha_max format →
      pixel_alpha format rep (r + i * format_Bpp format) = format_alpha_max format →
      pixel_alpha format (format_blend dst d rep r pixels format) (d + i * format_Bpp format)
        = format_alpha_max format) ∧
    (format = format_t.FORMAT_ARGB4444 →
      ∃ red, red < 16 ∧
        red = (((dst.getD (d + i * 2 + 1) 0 &&& 0x0f) >>> 0)
                  * (0xf - pixel_alpha format rep (r + i * 2))
                + ((rep.getD (r + i * 2 + 1) 0 &&& 0x0f) >>> 0)
                  * pixel_alpha format rep (r + i * 2)) >>> 4 ∧
        (format_blend dst d rep r pixels format).getD (d + i * 2 + 1) 0
          = 16 * min (pixel_alpha format dst (d + i * 2) + pixel_alpha format rep (r + i * 2))
              0xf + red) := by
  have hmain : pixel_alpha format (format_blend dst d rep r pixels format)
        (d + i * format_Bpp format)
      = min (pixel_alpha format dst (d + i * format_Bpp format)
              + pixel_alpha format rep (r + i * format_Bpp format))
            (format_alpha_max format) ∧
      pixel_alpha format dst (d + i * format_Bpp format) ≤ format_alpha_max format := by
    rcases hfmt with h | h
    · subst h
      simp only [pixel_alpha, format_blend, format_Bpp, format_alpha_max] at hlen ⊢
      rw [Nat.mul_comm i 4]
      refine ⟨blend_bgra8888_alpha rep pixels dst d r i hi (by omega), ?_⟩
      have hin : d + 4 * i + 3 < dst.length := by omega
      have hmem : dst.getD (d + 4 * i + 3) 0 ∈ dst := by
        rw [List.getD_eq_getElem?_getD, List.getElem?_eq_getElem hin]
        exact List.getElem_mem hin
      have := hbyte _ hmem
      omega
    · subst h
      simp only [pixel_alpha, format_blend, format_Bpp, format_alpha_max] at hlen ⊢
      rw [Nat.mul_comm i 2]
      have hb := blend_argb4444_byte1 rep pixels dst d r i hi (by omega)
      have hd := nibble_hi_lt (dst.getD (d + 2 * i + 1) 0)
      refine ⟨?_, by omega⟩
      rw [hb]
      exact (pack_nibbles _ _ (by omega)
        (blend_channel_lt _ _ _ (nibble_lo_lt _) (nibble_lo_lt _) (nibble_hi_lt _))).2
  refine ⟨hmain.1, ?_, ?_, ?_⟩
  · rw [hmain.1]
    have := hmain.2
    omega
  · intro h1 h2
    rw [hmain.1, h1, h2]
    omega
  · intro h
    subst h
    simp only [pixel_alpha, format_blend, format_Bpp] at hlen ⊢
    rw [Nat.mul_comm i 2]
    refine ⟨_, blend_channel_lt _ _ _ (nibble_lo_lt (dst.getD (d + 2 * i + 1) 0))
      (nibble_lo_lt (rep.getD (r + 2 * i + 1) 0)) (nibble_hi_lt (rep.getD (r + 2 * i + 1) 0)),
      rfl, ?_⟩
    exact blend_argb4444_byte1 rep pixels dst d r i hi (by omega)

/-- C9, instance: the second of two `FORMAT_ARGB4444` pixels, both fully
opaque with red 15: the blended byte is `0xfe`, alpha 15 and red 14. -/
theorem format_blend_alpha_witness :
    format_blend [0x00, 0xf0, 0xff, 0xff] 0 [0x00, 0xf0, 0xff, 0xff] 0 2
        format_t.FORMAT_ARGB4444 = [0x00, 0xf0, 0xee, 0xfe] ∧
    (pixel_alpha format_t.FORMAT_ARGB4444
        (format_blend [0x00, 0xf0, 0xff, 0xff] 0 [0x00, 0xf0, 0xff, 0xff] 0 2
          format_t.FORMAT_ARGB4444) (0 + 1 * format_Bpp format_t.FORMAT_ARGB4444)
      = min (pixel_alpha format_t.FORMAT_ARGB4444 [0x00, 0xf0, 0xff, 0xff]
                (0 + 1 * format_Bpp format_t.FORMAT_ARGB4444)
              + pixel_alpha format_t.FORMAT_ARGB4444 [0x00, 0xf0, 0xff, 0xff]
                (0 + 1 * format_Bpp format_t.FORMAT_ARGB4444))
            (format_alpha_max format_t.FORMAT_ARGB4444) ∧
    pixel_alpha format_t.FORMAT_ARGB4444 [0x00, 0xf0, 0xff, 0xff]
        (0 + 1 * format_Bpp format_t.FORMAT_ARGB4444)
      ≤ pixel_alpha format_t.FORMAT_ARGB4444
          (format_blend [0x00, 0xf0, 0xff, 0xff] 0 [0x00, 0xf0, 0xff, 0xff] 0 2
            format_t.FORMAT_ARGB4444) (0 + 1 * format_Bpp format_t.FORMAT_ARGB4444) ∧
    (pixel_alpha format_t.FORMAT_ARGB4444 [0x00, 0xf0, 0xff, 0xff]
        (0 + 1 * format_Bpp format_t.FORMAT_ARGB4444)
        = format_alpha_max format_t.FORMAT_ARGB4444 →
      pixel_alpha format_t.FORMAT_ARGB4444 [0x00, 0xf0, 0xff, 0xff]
        (0 + 1 * format_Bpp format_t.FORMAT_ARGB4444)
        = format_alpha_max format_t.FORMAT_ARGB4444 →
      pixel_alpha format_t.FORMAT_ARGB4444
          (format_blend [0x00, 0xf0, 0xff, 0xff] 0 [0x00, 0xf0, 0xff, 0xff] 0 2
            format_t.FORMAT_ARGB4444) (0 + 1 * format_Bpp format_t.FORMAT_ARGB4444)
        = format_alpha_max format_t.FORMAT_ARGB4444) ∧
    (format_t.FORMAT_ARGB4444 = format_t.FORMAT_ARGB4444 →
      ∃ red, red < 16 ∧
        red = ((([0x00, 0xf0, 0xff, 0xff].getD (0 + 1 * 2 + 1) 0 &&& 0x0f) >>> 0)
                  * (0xf - pixel_alpha format_t.FORMAT_ARGB4444 [0x00, 0xf0, 0xff, 0xff]
                      (0 + 1 * 2))
                + (([0x00, 0xf0, 0xff, 0xff].getD (0 + 1 * 2 + 1) 0 &&& 0x0f) >>> 0)
                  * pixel_alpha format_t.FORMAT_ARGB4444 [0x00, 0xf0, 0xff, 0xff]
                      (0 + 1 * 2)) >>> 4 ∧
        (format_blend [0x00, 0xf0, 0xff, 0xff] 0 [0x00, 0xf0, 0xff, 0xff] 0 2
            format_t.FORMAT_ARGB4444).getD (0 + 1 * 2 + 1) 0
          = 16 * min (pixel_alpha format_t.FORMAT_ARGB4444 [0x00, 0xf0, 0xff, 0xff] (0 + 1 * 2)
                + pixel_alpha format_t.FORMAT_ARGB4444 [0x00, 0xf0, 0xff, 0xff] (0 + 1 * 2))
              0xf + red)) :=
  ⟨by decide,
    format_blend_alpha format_t.FORMAT_ARGB4444 [0x00, 0xf0, 0xff, 0xff]
      [0x00, 0xf0, 0xff, 0xff] 0 0 2 1 (Or.inr rfl) (by decide) (by decide) (by decide)⟩

/-! ### C10: patch_thtx -/

/-- C10, as stated, fails: an entry with a non-null `sprites` array and
`sprite_num = 1` is not patched at sprite level.  `patch_thtx` takes the branch
of the fake sprite covering the entire texture, and on a 2×1 texture whose one
sprite is the left pixel it overwrites the right pixel too (`4, 5, 6, 0`
becomes `40, 50, 60, 255`), where patching that sprite alone leaves the right
pixel unchanged. -/
theorem patch_thtx_single_sprite_patches_whole_texture :
    sample_entry.sprites = some [{ x := 0, y := 0, w := 1, h := 1 }] ∧
    sample_entry.sprite_num = 1 ∧
    entry_data (some sample_entry) = [1, 2, 3, 0, 4, 5, 6, 0] ∧
    patch_thtx sample_alpha_value (some sample_entry) (some sample_image)
      = patch_thtx_fake_sprite sample_alpha_value sample_entry sample_image
          { format := format_t.FORMAT_BGRA8888, w := 2, h := 1,
            data := [1, 2, 3, 0, 4, 5, 6, 0] }
          [10, 20, 30, 255, 40, 50, 60, 255] ∧
    entry_data (patch_thtx sample_alpha_value (some sample_entry) (some sample_image)).2
      = [10, 20, 30, 255, 40, 50, 60, 255] ∧
    (patch_thtx_sprite sample_entry sample_image [10, 20, 30, 255, 40, 50, 60, 255]
        (some { x := 0, y := 0, w := 1, h := 1 })
        { format := format_t.FORMAT_BGRA8888, w := 2, h := 1,
          data := [1, 2, 3, 0, 4, 5, 6, 0] }).data
      = [10, 20, 30, 255, 4, 5, 6, 0] := by
  refine ⟨rfl, rfl, rfl, rfl, ?_, ?_⟩ <;> decide

theorem patch_thtx_sprites_foldl (entry : anm_entry_t) (image : png_image_ex)
    (sprites : List sprite_local_t) (rep : List Nat) (n : Nat) :
    ∀ (i : Nat) (thtx : thtx_header_t),
      patch_thtx_sprites entry image sprites rep n i thtx
        = (List.range' i n).foldl
            (fun t j => patch_thtx_sprite entry image rep sprites[j]? t) thtx := by
  induction n with
  | zero => intro i thtx; rfl
  | succ n ih =>
    intro i thtx
    simp only [patch_thtx_sprites, List.range'_succ, List.foldl_cons]
    exact ih _ _

theorem blend_bgra8888_above (rep : List Nat) (n : Nat) :
    ∀ (dst : List Nat) (d r j : Nat), d + 4 * n ≤ j →
      (blend_bgra8888 n dst d rep r).getD j 0 = dst.getD j 0 := by
  induction n with
  | zero => intro dst d r j _; rfl
  | succ n ih =>
    intro dst d r j hj
    simp only [blend_bgra8888]
    rw [ih _ _ _ _ (by omega), blend_bgra8888_pixel_other _ _ _ _ _ (Or.inr (by omega))]

theorem blend_argb4444_above (rep : List Nat) (n : Nat) :
    ∀ (dst : List Nat) (d r j : Nat), d + 2 * n ≤ j →
      (blend_argb4444 n dst d rep r).getD j 0 = dst.getD j 0 := by
  induction n with
  | zero => intro dst d r j _; rfl
  | succ n ih =>
    intro dst d r j hj
    simp only [blend_argb4444]
    rw [ih _ _ _ _ (by omega), blend_argb4444_pixel_other _ _ _ _ _ (Or.inr (by omega))]

theorem memcpy_other (dst : List Nat) (d : Nat) (src : List Nat) (s n j : Nat)
    (hj : j < d ∨ d + n ≤ j) :
    (memcpy dst d src s n).getD j 0 = dst.getD j 0 := by
  induction n with
  | zero => rfl
  | succ n ih =>
    simp only [memcpy]
    rw [getD_set_ne _ _ _ _ (by omega)]
    exact ih (by omega)

/-- A blitting function stores only into the `pixels` pixels it is given. -/
theorem format_copy_other (dst : List Nat) (d : Nat) (rep : List Nat) (r pixels : Nat)
    (format : format_t) (j : Nat) (hj : j < d ∨ d + pixels * format_Bpp format ≤ j) :
    (format_copy dst d rep r pixels format).getD j 0 = dst.getD j 0 :=
  memcpy_other _ _ _ _ _ _ hj

theorem format_blend_other (dst : List Nat) (d : Nat) (rep : List Nat) (r pixels : Nat)
    (format : format_t) (j : Nat) (hj : j < d ∨ d + pixels * format_Bpp format ≤ j) :
    (format_blend dst d rep r pixels format).getD j 0 = dst.getD j 0 := by
  cases format with
  | FORMAT_BGRA8888 =>
    simp only [format_blend, format_Bpp] at hj ⊢
    rcases hj with h | h
    · exact blend_bgra8888_below _ _ _ _ _ _ h
    · exact blend_bgra8888_above _ _ _ _ _ _ (by omega)
  | FORMAT_ARGB4444 =>
    simp only [format_blend, format_Bpp] at hj ⊢
    rcases hj with h | h
    · exact blend_argb4444_below _ _ _ _ _ _ h
    · exact blend_argb4444_above _ _ _ _ _ _ (by omega)
  | FORMAT_RGB565 => exact format_copy_other _ _ _ _ _ _ _ hj
  | FORMAT_GRAY8 => exact format_copy_other _ _ _ _ _ _ _ hj
  | unknown v => exact format_copy_other _ _ _ _ _ _ _ hj

theorem sprite_blit_rows_other (sp : sprite_patch_t) (func : BlitFunc_t) (rep : List Nat)
    (hfunc : ∀ (dst : List Nat) (d : Nat) (rep : List Nat) (r pixels : Nat) (format : format_t)
      (j : Nat), (j < d ∨ d + pixels * format_Bpp format ≤ j) →
      (func dst d rep r pixels format).getD j 0 = dst.getD j 0)
    (k : Nat) (rows : Nat) :
    ∀ (dst : List Nat) (dst_p rep_p : Nat),
      (∀ (r : Nat), r < rows →
        k < dst_p + r * sp.dst_stride ∨
        dst_p + r * sp.dst_stride + sp.copy_w * format_Bpp sp.format ≤ k) →
      (sprite_blit_rows sp func rep rows dst dst_p rep_p).getD k 0 = dst.getD k 0 := by
  induction rows with
  | zero => intro dst dst_p rep_p _; rfl
  | succ rows ih =>
    intro dst dst_p rep_p h
    simp only [sprite_blit_rows]
    rw [ih]
    · apply hfunc
      have := h 0 (by omega)
      simpa using this
    · intro r hr
      have := h (r + 1) (by omega)
      rw [Nat.add_mul, Nat.one_mul] at this
      omega

theorem sprite_patch_other (sp : sprite_patch_t) (dst rep : List Nat) (k : Nat)
    (h : ∀ (r : Nat), r < sp.copy_h →
      k < sp.dst_buf + r * sp.dst_stride ∨
      sp.dst_buf + r * sp.dst_stride + sp.copy_w * format_Bpp sp.format ≤ k) :
    (sprite_patch sp dst rep).2.getD k 0 = dst.getD k 0 := by
  unfold sprite_patch
  simp only []
  split
  · simp only [sprite_blit]
    split
    · exact sprite_blit_rows_other sp format_blend rep format_blend_other k _ _ _ _ h
    · exact sprite_blit_rows_other sp format_copy rep format_copy_other k _ _ _ _ h
  · rfl

theorem sprite_patch_set_bpp (sp0 : sprite_patch_t) (entry : Option anm_entry_t)
    (sprite : Option sprite_local_t) (image : Option png_image_ex)
    (h0 : (sprite_patch_set sp0 entry sprite image).1 = 0) :
    (sprite_patch_set sp0 entry sprite image).2.bpp
      = format_Bpp (sprite_patch_set sp0 entry sprite image).2.format := by
  cases entry with
  | none => simp [sprite_patch_set] at h0
  | some e =>
    cases sprite with
    | none => simp [sprite_patch_set] at h0
    | some s =>
      cases image with
      | none => simp [sprite_patch_set] at h0
      | some img =>
        cases ht : e.thtx with
        | none => simp [sprite_patch_set, ht] at h0
        | some thtx =>
          cases hb : img.buf with
          | none => simp [sprite_patch_set, ht, hb] at h0
          | some rep =>
            simp only [sprite_patch_set, ht, hb] at h0 ⊢
            split at h0
            · simp at h0
            · rename_i hcond
              rw [if_neg hcond]

theorem sprite_patch_set_same_geometry (sp0 : sprite_patch_t) (e : anm_entry_t)
    (t t2 : thtx_header_t) (sprite : Option sprite_local_t) (image : Option png_image_ex)
    (hf : t.format = t2.format) (hw : t.w = t2.w) (hh : t.h = t2.h) :
    sprite_patch_set sp0 (some { e with thtx := some t }) sprite image
      = sprite_patch_set sp0 (some { e with thtx := some t2 }) sprite image := by
  cases sprite with
  | none => rfl
  | some s =>
    cases image with
    | none => rfl
    | some img =>
      cases hb : img.buf with
      | none => simp [sprite_patch_set, hb]
      | some rep => simp [sprite_patch_set, hb, hf, hw, hh]

theorem patch_thtx_sprite_geometry (e : anm_entry_t) (img : png_image_ex) (rep : List Nat)
    (sprite : Option sprite_local_t) (t : thtx_header_t) :
    (patch_thtx_sprite e img rep sprite t).format = t.format ∧
    (patch_thtx_sprite e img rep sprite t).w = t.w ∧
    (patch_thtx_sprite e img rep sprite t).h = t.h := by
  unfold patch_thtx_sprite
  simp only []
  split <;> exact ⟨rfl, rfl, rfl⟩

theorem patch_thtx_sprites_geometry (e : anm_entry_t) (img : png_image_ex) (rep : List Nat)
    (sprites : List sprite_local_t) (l : List Nat) :
    ∀ (t : thtx_header_t),
      (l.foldl (fun t j => patch_thtx_sprite e img rep sprites[j]? t) t).format = t.format ∧
      (l.foldl (fun t j => patch_thtx_sprite e img rep sprites[j]? t) t).w = t.w ∧
      (l.foldl (fun t j => patch_thtx_sprite e img rep sprites[j]? t) t).h = t.h := by
  induction l with
  | nil => intro t; exact ⟨rfl, rfl, rfl⟩
  | cons j l ih =>
    intro t
    simp only [List.foldl_cons]
    have hg := patch_thtx_sprite_geometry e img rep sprites[j]? t
    have hrec := ih (patch_thtx_sprite e img rep sprites[j]? t)
    exact ⟨hrec.1.trans hg.1, hrec.2.1.trans hg.2.1, hrec.2.2.trans hg.2.2⟩

/-- The sprite loop of `patch_thtx` keeps the texture's format and dimensions,
and leaves every byte of the texture data unchanged that lies outside the row
segments the patched sprites blit to. -/
theorem patch_thtx_sprites_other (e : anm_entry_t) (img : png_image_ex) (rep : List Nat)
    (sprites : List sprite_local_t) (thtx : thtx_header_t) (k : Nat) (l : List Nat) :
    ∀ (t : thtx_header_t), t.format = thtx.format → t.w = thtx.w → t.h = thtx.h →
      (∀ (j : Nat), j ∈ l →
        (sprite_patch_set sprite_patch_zero (some { e with thtx := some thtx })
            sprites[j]? (some img)).1 = 0 →
        ∀ (r : Nat),
          r < (sprite_patch_set sprite_patch_zero (some { e with thtx := some thtx })
            sprites[j]? (some img)).2.copy_h →
          k < (sprite_patch_set sprite_patch_zero (some { e with thtx := some thtx })
                sprites[j]? (some img)).2.dst_buf
              + r * (sprite_patch_set sprite_patch_zero (some { e with thtx := some thtx })
                sprites[j]? (some img)).2.dst_stride ∨
          (sprite_patch_set sprite_patch_zero (some { e with thtx := some thtx })
                sprites[j]? (some img)).2.dst_buf
              + r * (sprite_patch_set sprite_patch_zero (some { e with thtx := some thtx })
                sprites[j]? (some img)).2.dst_stride
              + (sprite_patch_set sprite_patch_zero (some { e with thtx := some thtx })
                sprites[j]? (some img)).2.copy_w
                * (sprite_patch_set sprite_patch_zero (some { e with thtx := some thtx })
                  sprites[j]? (some img)).2.bpp ≤ k) →
      (l.foldl (fun t j => patch_thtx_sprite e img rep sprites[j]? t) t).data.getD k 0
          = t.data.getD k 0 ∧
      (l.foldl (fun t j => patch_thtx_sprite e img rep sprites[j]? t) t).format = thtx.format ∧
      (l.foldl (fun t j => patch_thtx_sprite e img rep sprites[j]? t) t).w = thtx.w ∧
      (l.foldl (fun t j => patch_thtx_sprite e img rep sprites[j]? t) t).h = thtx.h := by
  induction l with
  | nil => intro t hf hw hh _; exact ⟨rfl, hf, hw, hh⟩
  | cons j l ih =>
    intro t hf hw hh hcond
    simp only [List.foldl_cons]
    have hg := patch_thtx_sprite_geometry e img rep sprites[j]? t
    have hrec := ih (patch_thtx_sprite e img rep sprites[j]? t)
      (hg.1.trans hf) (hg.2.1.trans hw) (hg.2.2.trans hh)
      (fun j2 hj2 => hcond j2 (List.mem_cons_of_mem _ hj2))
    refine ⟨?_, hrec.2⟩
    rw [hrec.1]
    have hsame := sprite_patch_set_same_geometry sprite_patch_zero e t thtx sprites[j]?
      (some img) hf hw hh
    unfold patch_thtx_sprite
    simp only []
    rw [hsame]
    split
    · rename_i h0
      have hc := hcond j (List.mem_cons_self _ _) h0
      have hb := sprite_patch_set_bpp _ _ _ _ h0
      apply sprite_patch_other
      intro r hr
      have := hc r hr
      rw [hb] at this
      exact this
    · rfl

/-- C10, amended. For an entry with a texture, an image with a buffer and a
non-null `sprites` array, `patch_thtx` patches at sprite level when
`sprite_num` is at least 2: it returns 0, and the texture is the result of
going through the sprite indices `0 … sprite_num − 1` in order, calling
`sprite_patch_set` for each sprite and, where that returns 0, `sprite_patch`
with the parameters it computed.  The texture keeps its format and
dimensions, and every byte of its data outside the row segments of the
sprites' copy rectangles (`copy_w` pixels from `dst_buf` in each of `copy_h`
rows `dst_stride` apart) is left unchanged.  When `sprite_num` is 0 or 1,
`patch_thtx` instead calls `sprite_patch_set` and `sprite_patch` once, for the
fake sprite `{0, 0, thtx->w, thtx->h}` covering the entire texture, with the
return value and the texture data it gives for the same entry without a
`sprites` array. -/
theorem patch_thtx_sprite_level (alpha_value : sprite_alpha_t → Int) (e : anm_entry_t)
    (img : png_image_ex) (thtx : thtx_header_t) (rep : List Nat) (sprites : List sprite_local_t)
    (hthtx : e.thtx = some thtx) (hbuf : img.buf = some rep) (hs : e.sprites = some sprites) :
    (2 ≤ e.sprite_num →
      patch_thtx alpha_value (some e) (some img)
        = (0, some { e with
            thtx := some ((List.range' 0 e.sprite_num).foldl
              (fun t j =>
                if (sprite_patch_set sprite_patch_zero (some { e with thtx := some t })
                      sprites[j]? (some img)).1 = 0 then
                  { t with
                    data := (sprite_patch
                      (sprite_patch_set sprite_patch_zero (some { e with thtx := some t })
                        sprites[j]? (some img)).2 t.data rep).2 }
                else t) thtx) }) ∧
      (∃ (t2 : thtx_header_t),
        (patch_thtx alpha_value (some e) (some img)).2 = some { e with thtx := some t2 } ∧
        t2.format = thtx.format ∧ t2.w = thtx.w ∧ t2.h = thtx.h) ∧
      (∀ (k : Nat),
        (∀ (j : Nat), j < e.sprite_num →
          (sprite_patch_set sprite_patch_zero (some e) sprites[j]? (some img)).1 = 0 →
          ∀ (r : Nat),
            r < (sprite_patch_set sprite_patch_zero (some e) sprites[j]? (some img)).2.copy_h →
            k < (sprite_patch_set sprite_patch_zero (some e) sprites[j]? (some img)).2.dst_buf
                + r * (sprite_patch_set sprite_patch_zero (some e) sprites[j]?
                    (some img)).2.dst_stride ∨
            (sprite_patch_set sprite_patch_zero (some e) sprites[j]? (some img)).2.dst_buf
                + r * (sprite_patch_set sprite_patch_zero (some e) sprites[j]?
                    (some img)).2.dst_stride
                + (sprite_patch_set sprite_patch_zero (some e) sprites[j]? (some img)).2.copy_w
                  * (sprite_patch_set sprite_patch_zero (some e) sprites[j]? (some img)).2.bpp
              ≤ k) →
        (entry_data (patch_thtx alpha_value (some e) (some img)).2).getD k 0
          = thtx.data.getD k 0)) ∧
    (e.sprite_num ≤ 1 →
      patch_thtx alpha_value (some e) (some img)
        = (if (sprite_patch_set sprite_patch_zero (some e)
                (some { x := 0, y := 0, w := thtx.w, h := thtx.h }) (some img)).1 = 0 then
            (alpha_value (sprite_patch
                (sprite_patch_set sprite_patch_zero (some e)
                  (some { x := 0, y := 0, w := thtx.w, h := thtx.h }) (some img)).2
                thtx.data rep).1,
             some { e with
               thtx := some { thtx with
                 data := (sprite_patch
                   (sprite_patch_set sprite_patch_zero (some e)
                     (some { x := 0, y := 0, w := thtx.w, h := thtx.h }) (some img)).2
                   thtx.data rep).2 } })
           else (0, some e)) ∧
      (patch_thtx alpha_value (some e) (some img)).1
        = (patch_thtx alpha_value (some { e with sprites := none }) (some img)).1 ∧
      entry_data (patch_thtx alpha_value (some e) (some img)).2
        = entry_data (patch_thtx alpha_value (some { e with sprites := none }) (some img)).2) := by
  constructor
  · intro h
    have hgt : e.sprite_num > 1 := by omega
    have hres : patch_thtx alpha_value (some e) (some img)
        = (0, some { e with
            thtx := some ((List.range' 0 e.sprite_num).foldl
              (fun t j => patch_thtx_sprite e img rep sprites[j]? t) thtx) }) := by
      simp only [patch_thtx, hthtx, hbuf, hs, if_pos hgt, patch_thtx_sprites_foldl]
    have he : ({ e with thtx := some thtx } : anm_entry_t) = e := by
      cases e
      simp only at hthtx
      subst hthtx
      rfl
    have hloc := fun (k : Nat) =>
      patch_thtx_sprites_other e img rep sprites thtx k (List.range' 0 e.sprite_num) thtx
        rfl rfl rfl
    refine ⟨?_, ?_, ?_⟩
    · rw [hres]
      rfl
    · refine ⟨_, by rw [hres], ?_⟩
      exact (patch_thtx_sprites_geometry e img rep sprites (List.range' 0 e.sprite_num) thtx)
    · intro k hk
      rw [hres]
      simp only [entry_data]
      apply (hloc k ?_).1
      intro j hj h0 r hr
      rw [he] at h0 hr ⊢
      have hjlt : j < e.sprite_num := by
        have := List.mem_range'_1.mp hj
        omega
      exact hk j hjlt h0 r hr
  · intro h
    have hgt : ¬ e.sprite_num > 1 := by omega
    have h1 : patch_thtx alpha_value (some e) (some img)
        = patch_thtx_fake_sprite alpha_value e img thtx rep := by
      simp only [patch_thtx, hthtx, hbuf, hs, if_neg hgt]
    have h2 : patch_thtx alpha_value (some { e with sprites := none }) (some img)
        = patch_thtx_fake_sprite alpha_value { e with sprites := none } img thtx rep := by
      simp only [patch_thtx, hthtx, hbuf]
    have hset : sprite_patch_set sprite_patch_zero (some { e with sprites := none })
          (some { x := 0, y := 0, w := thtx.w, h := thtx.h }) (some img)
        = sprite_patch_set sprite_patch_zero (some e)
          (some { x := 0, y := 0, w := thtx.w, h := thtx.h }) (some img) := by
      simp [sprite_patch_set]
    refine ⟨?_, ?_, ?_⟩
    · rw [h1]
      rfl
    · rw [h1, h2]
      simp only [patch_thtx_fake_sprite, hset]
      split <;> rfl
    · rw [h1, h2]
      simp only [patch_thtx_fake_sprite, hset]
      split
      · simp [entry_data]
      · simp [entry_data, hthtx]

/-- C10, amended, instance.  The entry with two sprites, the left and the
right pixel of a 3×1 texture, is patched at sprite level: both sprites are
replaced and the middle pixel, which lies in no sprite, keeps its bytes.  The
entry with one sprite, the left pixel of a 2×1 texture, is patched through the
fake sprite covering the entire texture, which replaces the right pixel too. -/
theorem patch_thtx_sprite_level_witness :
    patch_thtx sample_alpha_value (some two_sprite_entry) (some two_sprite_image)
      = (0, some { two_sprite_entry with
          thtx := some { format := format_t.FORMAT_BGRA8888, w := 3, h := 1,
                         data := [10, 20, 30, 255, 4, 5, 6, 0, 70, 80, 90, 255] } }) ∧
    (entry_data (patch_thtx sample_alpha_value (some two_sprite_entry)
        (some two_sprite_image)).2).getD 4 0
      = ([1, 2, 3, 0, 4, 5, 6, 0, 7, 8, 9, 0] : List Nat).getD 4 0 ∧
    (entry_data (patch_thtx sample_alpha_value (some two_sprite_entry)
        (some two_sprite_image)).2).getD 7 0
      = ([1, 2, 3, 0, 4, 5, 6, 0, 7, 8, 9, 0] : List Nat).getD 7 0 ∧
    patch_thtx sample_alpha_value (some sample_entry) (some sample_image)
      = (1, some { sample_entry with
          thtx := some { format := format_t.FORMAT_BGRA8888, w := 2, h := 1,
                         data := [10, 20, 30, 255, 40, 50, 60, 255] } }) ∧
    (patch_thtx sample_alpha_value (some sample_entry) (some sample_image)).1
      = (patch_thtx sample_alpha_value (some { sample_entry with sprites := none })
          (some sample_image)).1 :=
  ⟨((patch_thtx_sprite_level sample_alpha_value two_sprite_entry two_sprite_image
        { format := format_t.FORMAT_BGRA8888, w := 3, h := 1,
          data := [1, 2, 3, 0, 4, 5, 6, 0, 7, 8, 9, 0] }
        [10, 20, 30, 255, 40, 50, 60, 255, 70, 80, 90, 255]
        [{ x := 0, y := 0, w := 1, h := 1 }, { x := 2, y := 0, w := 1, h := 1 }]
        rfl rfl rfl).1 (by decide)).1.trans (by decide),
   ((patch_thtx_sprite_level sample_alpha_value two_sprite_entry two_sprite_image
        { format := format_t.FORMAT_BGRA8888, w := 3, h := 1,
          data := [1, 2, 3, 0, 4, 5, 6, 0, 7, 8, 9, 0] }
        [10, 20, 30, 255, 40, 50, 60, 255, 70, 80, 90, 255]
        [{ x := 0, y := 0, w := 1, h := 1 }, { x := 2, y := 0, w := 1, h := 1 }]
        rfl rfl rfl).1 (by decide)).2.2 4 (by decide),
   ((patch_thtx_sprite_level sample_alpha_value two_sprite_entry two_sprite_image
        { format := format_t.FORMAT_BGRA8888, w := 3, h := 1,
          data := [1, 2, 3, 0, 4, 5, 6, 0, 7, 8, 9, 0] }
        [10, 20, 30, 255, 40, 50, 60, 255, 70, 80, 90, 255]
        [{ x := 0, y := 0, w := 1, h := 1 }, { x := 2, y := 0, w := 1, h := 1 }]
        rfl rfl rfl).1 (by decide)).2.2 7 (by decide),
   ((patch_thtx_sprite_level sample_alpha_value sample_entry sample_image
        { format := format_t.FORMAT_BGRA8888, w := 2, h := 1, data := [1, 2, 3, 0, 4, 5, 6, 0] }
        [10, 20, 30, 255, 40, 50, 60, 255] [{ x := 0, y := 0, w := 1, h := 1 }]
        rfl rfl rfl).2 (by decide)).1.trans (by decide),
   ((patch_thtx_sprite_level sample_alpha_value sample_entry sample_image
        { format := format_t.FORMAT_BGRA8888, w := 2, h := 1, data := [1, 2, 3, 0, 4, 5, 6, 0] }
        [10, 20, 30, 255, 40, 50, 60, 255] [{ x := 0, y := 0, w := 1, h := 1 }]
        rfl rfl rfl).2 (by decide)).2.1⟩

/-! ### C11: format_from_bgra -/

theorem getD_lt_of_bytes (data : List Nat) (hbyte : ∀ b ∈ data, b < 256) (k : Nat) :
    data.getD k 0 < 256 := by
  by_cases hk : k < data.length
  · rw [List.getD_eq_getElem?_getD, List.getElem?_eq_getElem hk]
    exact hbyte _ (List.getElem_mem hk)
  · rw [List.getD_eq_getElem?_getD, List.getElem?_eq_none (by omega)]
    simp

theorem pack_nibbles_lt (a c : Nat) (ha : a < 16) (hc : c < 16) :
    ((a <<< 4) ||| c) % 256 = (a <<< 4) ||| c := by
  interval_cases a <;> interval_cases c <;> rfl

theorem from_bgra_argb4444_length (n : Nat) :
    ∀ (data : List Nat) (inp out : Nat),
      (from_bgra_argb4444 n data inp out).length = data.length := by
  induction n with
  | zero => intro data inp out; rfl
  | succ n ih =>
    intro data inp out
    simp only [from_bgra_argb4444]
    rw [ih]
    simp

theorem from_bgra_argb4444_below (n : Nat) :
    ∀ (data : List Nat) (inp out j : Nat), j < out →
      (from_bgra_argb4444 n data inp out).getD j 0 = data.getD j 0 := by
  induction n with
  | zero => intro data inp out j _; rfl
  | succ n ih =>
    intro data inp out j hj
    simp only [from_bgra_argb4444]
    rw [ih _ _ _ _ (by omega), getD_set_ne _ _ _ _ (by omega), getD_set_ne _ _ _ _ (by omega)]

theorem from_bgra_argb4444_above (n : Nat) :
    ∀ (data : List Nat) (inp out j : Nat), out + 2 * n ≤ j →
      (from_bgra_argb4444 n data inp out).getD j 0 = data.getD j 0 := by
  induction n with
  | zero => intro data inp out j _; rfl
  | succ n ih =>
    intro data inp out j hj
    simp only [from_bgra_argb4444]
    rw [ih _ _ _ _ (by omega), getD_set_ne _ _ _ _ (by omega), getD_set_ne _ _ _ _ (by omega)]

/-- The two bytes the `FORMAT_ARGB4444` loop leaves for its pixel `i`, in terms
of the buffer the loop started from: the output pointer never passes the input
pointer, so every pixel is read before anything is stored over it. -/
theorem from_bgra_argb4444_pixel (n : Nat) :
    ∀ (data : List Nat) (inp out i : Nat), out ≤ inp → i < n → out + 2 * n ≤ data.length →
      (from_bgra_argb4444 n data inp out).getD (out + 2 * i) 0
        = (((data.getD (inp + 4 * i + 1) 0 >>> 4) <<< 4)
            ||| (data.getD (inp + 4 * i) 0 >>> 4)) % 256 ∧
      (from_bgra_argb4444 n data inp out).getD (out + 2 * i + 1) 0
        = (((data.getD (inp + 4 * i + 3) 0 >>> 4) <<< 4)
            ||| (data.getD (inp + 4 * i + 2) 0 >>> 4)) % 256 := by
  induction n with
  | zero => intro data inp out i _ hi; omega
  | succ n ih =>
    intro data inp out i hle hi hlen
    simp only [from_bgra_argb4444]
    cases i with
    | zero =>
      simp only [Nat.mul_zero, Nat.add_zero]
      constructor
      · rw [from_bgra_argb4444_below _ _ _ _ _ (by omega)]
        rw [getD_set_eq _ _ _ (by simp; omega)]
      · rw [from_bgra_argb4444_below _ _ _ _ _ (by omega)]
        rw [getD_set_ne _ _ _ _ (by omega), getD_set_eq _ _ _ (by omega)]
    | succ i =>
      have e0 : out + 2 * (i + 1) = (out + 2) + 2 * i := by omega
      have hrec := ih ((data.set (out + 1)
          ((((data.getD (inp + 3) 0 >>> 4) <<< 4) ||| (data.getD (inp + 2) 0 >>> 4)) % 256)).set out
          ((((data.getD (inp + 1) 0 >>> 4) <<< 4) ||| (data.getD inp 0 >>> 4)) % 256))
        (inp + 4) (out + 2) i (by omega) (by omega) (by simp; omega)
      rw [e0, hrec.1, hrec.2]
      have k0 : inp + 4 + 4 * i = inp + 4 * (i + 1) := by omega
      rw [k0]
      rw [getD_set_ne _ _ _ _ (by omega), getD_set_ne _ _ _ _ (by omega),
        getD_set_ne _ _ _ _ (by omega), getD_set_ne _ _ _ _ (by omega),
        getD_set_ne _ _ _ _ (by omega), getD_set_ne _ _ _ _ (by omega),
        getD_set_ne _ _ _ _ (by omega), getD_set_ne _ _ _ _ (by omega)]
      exact ⟨rfl, rfl⟩

/-- C11. `format_from_bgra` with `FORMAT_ARGB4444` converts in place without
corrupting unread input: for a buffer of `4 * pixels` bytes and every
`i < pixels`, byte `2i` of the result is `((G >> 4) << 4) | (B >> 4)` and byte
`2i + 1` is `((A >> 4) << 4) | (R >> 4)`, where `B`, `G`, `R`, `A` are bytes
`4i`, `4i + 1`, `4i + 2`, `4i + 3` of the buffer before the call; the buffer
keeps its length and its bytes from `2 * pixels` on. -/
theorem format_from_bgra_argb4444_in_place (data : List Nat) (pixels i : Nat)
    (hlen : data.length = 4 * pixels) (hbyte : ∀ b ∈ data, b < 256) (hi : i < pixels) :
    (format_from_bgra data pixels format_t.FORMAT_ARGB4444).getD (2 * i) 0
      = ((data.getD (4 * i + 1) 0 >>> 4) <<< 4) ||| (data.getD (4 * i) 0 >>> 4) ∧
    (format_from_bgra data pixels format_t.FORMAT_ARGB4444).getD (2 * i + 1) 0
      = ((data.getD (4 * i + 3) 0 >>> 4) <<< 4) ||| (data.getD (4 * i + 2) 0 >>> 4) ∧
    (format_from_bgra data pixels format_t.FORMAT_ARGB4444).length = data.length ∧
    (∀ (j : Nat), 2 * pixels ≤ j →
      (format_from_bgra data pixels format_t.FORMAT_ARGB4444).getD j 0 = data.getD j 0) := by
  have hnib : ∀ (k : Nat), data.getD k 0 >>> 4 < 16 := by
    intro k
    have := getD_lt_of_bytes data hbyte k
    rw [Nat.shiftRight_eq_div_pow]
    omega
  have hpix := from_bgra_argb4444_pixel pixels data 0 0 i (le_refl 0) hi (by omega)
  simp only [Nat.zero_add] at hpix
  simp only [format_from_bgra]
  refine ⟨?_, ?_, from_bgra_argb4444_length _ _ _ _, ?_⟩
  · rw [hpix.1]
    exact pack_nibbles_lt _ _ (hnib _) (hnib _)
  · rw [hpix.2]
    exact pack_nibbles_lt _ _ (hnib _) (hnib _)
  · intro j hj
    exact from_bgra_argb4444_above _ _ _ _ _ (by omega)

/-- C11, instance: two pixels; the second one, `0x12 0x34 0x56 0x78`, becomes
`0x31 0x75` although the first pixel was stored before it was read. -/
theorem format_from_bgra_argb4444_in_place_witness :
    format_from_bgra [0xab, 0xcd, 0xef, 0x90, 0x12, 0x34, 0x56, 0x78] 2
        format_t.FORMAT_ARGB4444 = [0xca, 0x9e, 0x31, 0x75, 0x12, 0x34, 0x56, 0x78] ∧
    ((format_from_bgra [0xab, 0xcd, 0xef, 0x90, 0x12, 0x34, 0x56, 0x78] 2
        format_t.FORMAT_ARGB4444).getD (2 * 1) 0
      = (([0xab, 0xcd, 0xef, 0x90, 0x12, 0x34, 0x56, 0x78].getD (4 * 1 + 1) 0 >>> 4) <<< 4)
        ||| ([0xab, 0xcd, 0xef, 0x90, 0x12, 0x34, 0x56, 0x78].getD (4 * 1) 0 >>> 4) ∧
    (format_from_bgra [0xab, 0xcd, 0xef, 0x90, 0x12, 0x34, 0x56, 0x78] 2
        format_t.FORMAT_ARGB4444).getD (2 * 1 + 1) 0
      = (([0xab, 0xcd, 0xef, 0x90, 0x12, 0x34, 0x56, 0x78].getD (4 * 1 + 3) 0 >>> 4) <<< 4)
        ||| ([0xab, 0xcd, 0xef, 0x90, 0x12, 0x34, 0x56, 0x78].getD (4 * 1 + 2) 0 >>> 4) ∧
    (format_from_bgra [0xab, 0xcd, 0xef, 0x90, 0x12, 0x34, 0x56, 0x78] 2
        format_t.FORMAT_ARGB4444).length
      = [0xab, 0xcd, 0xef, 0x90, 0x12, 0x34, 0x56, 0x78].length ∧
    (∀ (j : Nat), 2 * 2 ≤ j →
      (format_from_bgra [0xab, 0xcd, 0xef, 0x90, 0x12, 0x34, 0x56, 0x78] 2
        format_t.FORMAT_ARGB4444).getD j 0
        = [0xab, 0xcd, 0xef, 0x90, 0x12, 0x34, 0x56, 0x78].getD j 0)) :=
  ⟨by decide,
    format_from_bgra_argb4444_in_place [0xab, 0xcd, 0xef, 0x90, 0x12, 0x34, 0x56, 0x78] 2 1
      (by decide) (by decide) (by decide)⟩

/-! ### C12: struct_get -/

theorem ZeroMemory_length (buf : List Nat) (n : Nat) : (ZeroMemory buf n).length = buf.length := by
  induction n with
  | zero => rfl
  | succ n ih => simp [ZeroMemory, ih]

theorem ZeroMemory_getD_lt (buf : List Nat) (n k : Nat) (hk : k < n) :
    (ZeroMemory buf n).getD k 0 = 0 := by
  induction n with
  | zero => omega
  | succ n ih =>
    simp only [ZeroMemory]
    by_cases hkn : k = n
    · subst hkn
      by_cases hin : k < (ZeroMemory buf k).length
      · exact getD_set_eq _ _ _ hin
      · rw [List.getD_eq_getElem?_getD, List.getElem?_eq_none (by simp; omega)]
        rfl
    · rw [getD_set_ne _ _ _ _ (by omega)]
      exact ih (by omega)

theorem ZeroMemory_getD_ge (buf : List Nat) (n k : Nat) (hk : n ≤ k) :
    (ZeroMemory buf n).getD k 0 = buf.getD k 0 := by
  induction n with
  | zero => rfl
  | succ n ih =>
    simp only [ZeroMemory]
    rw [getD_set_ne _ _ _ _ (by omega)]
    exact ih (by omega)

theorem memcpy_length (dst : List Nat) (d : Nat) (src : List Nat) (s n : Nat) :
    (memcpy dst d src s n).length = dst.length := by
  induction n with
  | zero => rfl
  | succ n ih => simp [memcpy, ih]

theorem memcpy_getD_copied (dst : List Nat) (d : Nat) (src : List Nat) (s n k : Nat)
    (hk : k < n) (hin : d + k < dst.length) :
    (memcpy dst d src s n).getD (d + k) 0 = src.getD (s + k) 0 := by
  induction n with
  | zero => omega
  | succ n ih =>
    simp only [memcpy]
    by_cases hkn : k = n
    · subst hkn
      exact getD_set_eq _ _ _ (by rw [memcpy_length]; exact hin)
    · rw [getD_set_ne _ _ _ _ (by omega)]
      exact ih (by omega)

theorem memcpy_getD_other (dst : List Nat) (d : Nat) (src : List Nat) (s n j : Nat)
    (hj : j < d ∨ d + n ≤ j) :
    (memcpy dst d src s n).getD j 0 = dst.getD j 0 := by
  induction n with
  | zero => rfl
  | succ n ih =>
    simp only [memcpy]
    rw [getD_set_ne _ _ _ _ (by omega)]
    exact ih (by omega)

/-- C12. With `size` the effective field size, which is the `"size"` of `spec`
or the word size 4 when that is zero, `struct_get` returns −1 when `dest`,
`src` or `spec` is null or `dest_size` is 0, and −2 when `size` exceeds
`dest_size`, leaving `dest` unchanged in both cases.  Otherwise, for a `dest`
that holds `dest_size` bytes, it returns 0, the first `size` bytes of `dest`
are `src[offset .. offset + size)`, the bytes from `size` up to `dest_size`
are zero, and nothing beyond `dest_size` is touched. -/
theorem struct_get_result (json_object_get_hex : Option json_t → String → Nat)
    (dest : Option (List Nat)) (dest_size : Nat) (src : Option (List Nat))
    (spec : Option json_t) :
    ((dest = none ∨ src = none ∨ spec = none ∨ dest_size = 0) →
      struct_get json_object_get_hex dest dest_size src spec = (-1, dest)) ∧
    (dest ≠ none → src ≠ none → spec ≠ none → dest_size ≠ 0 →
      dest_size < (if json_object_get_hex spec "size" = 0 then 4
                   else json_object_get_hex spec "size") →
      struct_get json_object_get_hex dest dest_size src spec = (-2, dest)) ∧
    (∀ (d s : List Nat), dest = some d → src = some s → spec ≠ none → dest_size ≠ 0 →
      (if json_object_get_hex spec "size" = 0 then 4
       else json_object_get_hex spec "size") ≤ dest_size →
      dest_size ≤ d.length →
      ∃ (d2 : List Nat),
        struct_get json_object_get_hex dest dest_size src spec = (0, some d2) ∧
        d2.length = d.length ∧
        (∀ (k : Nat), k < (if json_object_get_hex spec "size" = 0 then 4
                           else json_object_get_hex spec "size") →
          d2.getD k 0 = s.getD (json_object_get_hex spec "offset" + k) 0) ∧
        (∀ (k : Nat), (if json_object_get_hex spec "size" = 0 then 4
                       else json_object_get_hex spec "size") ≤ k → k < dest_size →
          d2.getD k 0 = 0) ∧
        (∀ (k : Nat), dest_size ≤ k → d2.getD k 0 = d.getD k 0)) ∧
    (json_object_get_hex spec "size" = 0 →
      (if json_object_get_hex spec "size" = 0 then 4
       else json_object_get_hex spec "size") = 4) := by
  refine ⟨?_, ?_, ?_, ?_⟩
  · intro h
    cases dest with
    | none => rfl
    | some d =>
      cases src with
      | none => rfl
      | some s =>
        cases spec with
        | none => rfl
        | some sp =>
          rcases h with h | h | h | h
          · cases h
          · cases h
          · cases h
          · simp [struct_get, h]
  · intro hd hs hsp hz hsize
    cases dest with
    | none => exact absurd rfl hd
    | some d =>
      cases src with
      | none => exact absurd rfl hs
      | some s =>
        cases spec with
        | none => exact absurd rfl hsp
        | some sp =>
          simp only [struct_get, if_neg hz]
          rw [if_pos (by omega)]
  · intro d s hd hs hsp hz hsize hlen
    subst hd; subst hs
    cases spec with
    | none => exact absurd rfl hsp
    | some sp =>
      refine ⟨memcpy (ZeroMemory d dest_size) 0 s (json_object_get_hex (some sp) "offset")
        (if json_object_get_hex (some sp) "size" = 0 then 4
         else json_object_get_hex (some sp) "size"), ?_, ?_, ?_, ?_, ?_⟩
      · simp only [struct_get, if_neg hz]
        rw [if_neg (by omega)]
      · rw [memcpy_length, ZeroMemory_length]
      · intro k hk
        have := memcpy_getD_copied (ZeroMemory d dest_size) 0 s
          (json_object_get_hex (some sp) "offset") _ k hk
          (by rw [ZeroMemory_length]; omega)
        simpa using this
      · intro k hk1 hk2
        rw [memcpy_getD_other _ _ _ _ _ _ (Or.inr (by omega))]
        exact ZeroMemory_getD_lt _ _ _ hk2
      · intro k hk
        rw [memcpy_getD_other _ _ _ _ _ _ (Or.inr (by omega))]
        exact ZeroMemory_getD_ge _ _ _ hk
  · intro h
    rw [if_pos h]

/-- C12, instance: a 6-byte `dest`, a `spec` with offset 2 and no `"size"`, so
that 4 bytes are read: `dest` becomes `3, 4, 5, 6, 0, 0`. -/
theorem struct_get_result_witness :
    struct_get sample_json_object_get_hex (some [9, 9, 9, 9, 9, 9]) 6
        (some [1, 2, 3, 4, 5, 6, 7, 8]) (some (json_t.object [("offset", json_t.integer 2)]))
      = (0, some [3, 4, 5, 6, 0, 0]) ∧
    struct_get sample_json_object_get_hex (some [9, 9]) 2
        (some [1, 2, 3, 4, 5, 6, 7, 8]) (some (json_t.object [("offset", json_t.integer 2)]))
      = (-2, some [9, 9]) ∧
    ∃ (d2 : List Nat),
      struct_get sample_json_object_get_hex (some [9, 9, 9, 9, 9, 9]) 6
          (some [1, 2, 3, 4, 5, 6, 7, 8]) (some (json_t.object [("offset", json_t.integer 2)]))
        = (0, some d2) ∧
      d2.length = [9, 9, 9, 9, 9, 9].length ∧
      (∀ (k : Nat),
        k < (if sample_json_object_get_hex
                (some (json_t.object [("offset", json_t.integer 2)])) "size" = 0 then 4
             else sample_json_object_get_hex
                (some (json_t.object [("offset", json_t.integer 2)])) "size") →
        d2.getD k 0 = [1, 2, 3, 4, 5, 6, 7, 8].getD
          (sample_json_object_get_hex
            (some (json_t.object [("offset", json_t.integer 2)])) "offset" + k) 0) ∧
      (∀ (k : Nat),
        (if sample_json_object_get_hex
              (some (json_t.object [("offset", json_t.integer 2)])) "size" = 0 then 4
         else sample_json_object_get_hex
              (some (json_t.object [("offset", json_t.integer 2)])) "size") ≤ k →
        k < 6 → d2.getD k 0 = 0) ∧
      (∀ (k : Nat), 6 ≤ k → d2.getD k 0 = [9, 9, 9, 9, 9, 9].getD k 0) :=
  ⟨by decide, by decide,
    (struct_get_result sample_json_object_get_hex (some [9, 9, 9, 9, 9, 9]) 6
      (some [1, 2, 3, 4, 5, 6, 7, 8])
      (some (json_t.object [("offset", json_t.integer 2)]))).2.2.1
      [9, 9, 9, 9, 9, 9] [1, 2, 3, 4, 5, 6, 7, 8] rfl rfl (Option.some_ne_none _)
      (by decide) (by decide) (by decide)⟩

/-! ### C13: sprite_patch_set -/

/-- What `sprite_patch_set` does guarantee when it returns 0: the sprite starts
inside the texture, and the copy rectangle is no larger than the sprite and
lies inside the replacement image. -/
theorem sprite_patch_set_ok_bounds (sp0 : sprite_patch_t) (entry : anm_entry_t)
    (thtx : thtx_header_t) (sprite : sprite_local_t) (image : png_image_ex)
    (hthtx : entry.thtx = some thtx)
    (h0 : (sprite_patch_set sp0 (some entry) (some sprite) (some image)).1 = 0) :
    (sprite_patch_set sp0 (some entry) (some sprite) (some image)).2.dst_x < thtx.w ∧
    (sprite_patch_set sp0 (some entry) (some sprite) (some image)).2.dst_y < thtx.h ∧
    (sprite_patch_set sp0 (some entry) (some sprite) (some image)).2.copy_w ≤ sprite.w ∧
    (sprite_patch_set sp0 (some entry) (some sprite) (some image)).2.copy_h ≤ sprite.h ∧
    (sprite_patch_set sp0 (some entry) (some sprite) (some image)).2.rep_x
      + (sprite_patch_set sp0 (some entry) (some sprite) (some image)).2.copy_w ≤ image.width ∧
    (sprite_patch_set sp0 (some entry) (some sprite) (some image)).2.rep_y
      + (sprite_patch_set sp0 (some entry) (some sprite) (some image)).2.copy_h
      ≤ image.height := by
  cases hbuf : image.buf with
  | none => simp [sprite_patch_set, hthtx, hbuf] at h0
  | some rep =>
    simp only [sprite_patch_set, hthtx, hbuf] at h0 ⊢
    split at h0
    · simp at h0
    · rename_i hcond
      rw [if_neg hcond]
      simp only [not_or, not_le, ge_iff_le] at hcond
      simp only []
      omega

/-- C13. `sprite_patch_set` returns 0 with a copy rectangle that leaves the
destination texture.  For a 2×2 texture and a sprite at column 1 that is 2
wide, with an image 3 wide, `dst_x + copy_w = 3 > 2 = thtx->w`, and
`sprite_blit` then stores past the end of row 0, over the first pixel of row 1
(`1, 2, 3, 4` becomes `1, 20, 30, 4`).  For a 2×1 texture and a sprite 2 high,
with an image 2 high, `dst_y + copy_h = 2 > 1 = thtx->h`, and the second row
`sprite_blit` writes starts at the end of the texture data. -/
theorem sprite_patch_set_copy_rect_leaves_texture :
    (sprite_patch_set sprite_patch_zero (some wide_sprite_entry)
        (some { x := 1, y := 0, w := 2, h := 1 }) (some wide_sprite_image)).1 = 0 ∧
    (sprite_patch_set sprite_patch_zero (some wide_sprite_entry)
        (some { x := 1, y := 0, w := 2, h := 1 }) (some wide_sprite_image)).2.dst_x
      + (sprite_patch_set sprite_patch_zero (some wide_sprite_entry)
        (some { x := 1, y := 0, w := 2, h := 1 }) (some wide_sprite_image)).2.copy_w = 3 ∧
    ¬ ((sprite_patch_set sprite_patch_zero (some wide_sprite_entry)
        (some { x := 1, y := 0, w := 2, h := 1 }) (some wide_sprite_image)).2.dst_x
      + (sprite_patch_set sprite_patch_zero (some wide_sprite_entry)
        (some { x := 1, y := 0, w := 2, h := 1 }) (some wide_sprite_image)).2.copy_w ≤ 2) ∧
    (sprite_blit
        (sprite_patch_set sprite_patch_zero (some wide_sprite_entry)
          (some { x := 1, y := 0, w := 2, h := 1 }) (some wide_sprite_image)).2
        (some format_copy) [1, 2, 3, 4] [10, 20, 30, 40, 50, 60])
      = (0, [1, 20, 30, 4]) ∧
    (sprite_patch
        (sprite_patch_set sprite_patch_zero (some wide_sprite_entry)
          (some { x := 1, y := 0, w := 2, h := 1 }) (some wide_sprite_image)).2
        [1, 2, 3, 4] [10, 20, 30, 40, 50, 60]).2
      = [1, 20, 30, 4] ∧
    (sprite_patch_set sprite_patch_zero (some tall_sprite_entry)
        (some { x := 0, y := 0, w := 1, h := 2 }) (some tall_sprite_image)).1 = 0 ∧
    (sprite_patch_set sprite_patch_zero (some tall_sprite_entry)
        (some { x := 0, y := 0, w := 1, h := 2 }) (some tall_sprite_image)).2.dst_y
      + (sprite_patch_set sprite_patch_zero (some tall_sprite_entry)
        (some { x := 0, y := 0, w := 1, h := 2 }) (some tall_sprite_image)).2.copy_h = 2 ∧
    ¬ ((sprite_patch_set sprite_patch_zero (some tall_sprite_entry)
        (some { x := 0, y := 0, w := 1, h := 2 }) (some tall_sprite_image)).2.dst_y
      + (sprite_patch_set sprite_patch_zero (some tall_sprite_entry)
        (some { x := 0, y := 0, w := 1, h := 2 }) (some tall_sprite_image)).2.copy_h ≤ 1) ∧
    (sprite_patch_set sprite_patch_zero (some tall_sprite_entry)
        (some { x := 0, y := 0, w := 1, h := 2 }) (some tall_sprite_image)).2.dst_buf
      + 1 * (sprite_patch_set sprite_patch_zero (some tall_sprite_entry)
        (some { x := 0, y := 0, w := 1, h := 2 }) (some tall_sprite_image)).2.dst_stride
      = [1, 2].length := by
  decide

end Thcrap
